import Mathlib

/-!
# Q-C quick-commerce delivery simulation: a shallow embedding

This file embeds, in Lean 4, the core logic of the Q-C last-mile delivery
simulator (a TypeScript/React application) and proves properties of it.

Numbers: the source uses JavaScript floating-point numbers; here every
numeric quantity is modelled as a rational (`ℚ`), except simulation clock
times, which the source only ever forms as integer numbers of minutes and
which are modelled as `ℕ`.

Randomness and transcendental geometry: every call to `Math.random()` and
every geodesic distance (`getDistanceKm`, Leaflet's `distanceTo`, both built
from trigonometric functions) is threaded in as an explicit oracle
parameter, so that all definitions stay executable.  The point-in-polygon
test, the bounding-box computation, waypoint interpolation and all control
flow are embedded concretely.
-/

namespace QCSim

/-- A latitude/longitude pair (`LatLng` in `src/src/types.ts`). -/
structure LatLngQ where
  lat : ℚ
  lng : ℚ
deriving DecidableEq

/-- `AgentStatus` from `src/src/types.ts`.  The `busy` variant exists in the
TypeScript union only for the simplified optimization simulation and is never
produced by the full simulation. -/
inductive AgentStatus where
  | available
  | to_store
  | at_store
  | to_customer
  | busy
deriving DecidableEq

/-- `OrderStatus` from `src/src/types.ts`. -/
inductive OrderStatus where
  | pending
  | assigned
  | picked_up
  | delivered
  | cancelled
deriving DecidableEq

/-- `Agent` from `src/src/types.ts` (simulation-relevant fields; the
optional Leaflet marker and the optimization-only fields are omitted).
Identifiers are modelled as naturals; the source uses unique strings. -/
structure Agent where
  id : ℕ
  lat : ℚ
  lng : ℚ
  status : AgentStatus
  currentOrder : Option ℕ
  routePath : List LatLngQ
  legProgress : ℚ
  currentLegIndex : ℕ
  fatigueFactor : ℚ
  consecutiveDeliveriesSinceRest : ℕ
  timeContinuouslyActive : ℕ
  totalDistance : ℚ
  deliveriesCompleted : ℕ
  timeSpentIdle : ℕ
  timeSpentDelivering : ℕ
  timeSpentAtStore : ℕ
deriving DecidableEq

/-- `Order` from `src/src/types.ts` (marker omitted).  `deliveryTime` is kept
as an integer since the source computes it as a difference of two clock
times. -/
structure Order where
  id : ℕ
  lat : ℚ
  lng : ℚ
  timePlaced : ℕ
  status : OrderStatus
  assignedAgentId : Option ℕ
  storeArrivalTime : Option ℕ
  customerArrivalTime : Option ℕ
  deliveryTime : Option ℤ
deriving DecidableEq

/-- `HeatmapDataPoint` from `src/src/types.ts`. -/
structure HeatmapDataPoint where
  lat : ℚ
  lng : ℚ
  count : ℕ
deriving DecidableEq

/-! ## Constants from `src/src/data/ccrData.ts` -/

/-- Simulated minutes per tick. -/
def MINUTES_PER_SIMULATION_STEP : ℕ := 5

/-- Ticks between dynamic traffic refreshes. -/
def DYNAMIC_TRAFFIC_UPDATE_INTERVAL_STEPS : ℕ := 12

/-- Default dark store location (central Chandigarh). -/
def defaultDarkStoreLocationSim : LatLngQ := ⟨30.7333, 76.7794⟩

/-- Handling minutes at a store in the optimization sweep. -/
def BASE_HANDLING_TIME_MIN_OPT : ℚ := 5

/-! ## Fatigue model (`updateAgentFatigueLogic`, `src/unnamed/part_005`) -/

def FATIGUE_THRESHOLD_DELIVERIES : ℕ := 5

def FATIGUE_THRESHOLD_TIME_MIN : ℕ := 180

def FATIGUE_RECOVERY_IDLE_TIME_MIN : ℕ := 30

def FATIGUE_FACTOR_REDUCTION : ℚ := 15 / 100

def FATIGUE_FACTOR_RECOVERY_RATE : ℚ := 25 / 100

/-- The per-agent body of `updateAgentFatigueLogic`: recovery toward `1.0`
while idle long enough, decrement toward the floor `0.5` while busy past the
delivery-count or continuous-activity thresholds. -/
def updateOneAgentFatigue (agent : Agent) : Agent :=
  if agent.status = AgentStatus.available then
    if agent.fatigueFactor < 1 ∧ FATIGUE_RECOVERY_IDLE_TIME_MIN ≤ agent.timeSpentIdle then
      let newFatigueFactor := min 1 (agent.fatigueFactor + FATIGUE_FACTOR_RECOVERY_RATE)
      if agent.fatigueFactor < newFatigueFactor then
        { agent with fatigueFactor := newFatigueFactor, timeContinuouslyActive := 0,
                     consecutiveDeliveriesSinceRest := 0 }
      else agent
    else agent
  else
    let agent' := { agent with timeSpentIdle := 0 }
    if 1 / 2 < agent'.fatigueFactor then
      if FATIGUE_THRESHOLD_DELIVERIES ≤ agent'.consecutiveDeliveriesSinceRest ∨
         FATIGUE_THRESHOLD_TIME_MIN ≤ agent'.timeContinuouslyActive then
        { agent' with
            fatigueFactor := max (1 / 2) (agent'.fatigueFactor - FATIGUE_FACTOR_REDUCTION),
            consecutiveDeliveriesSinceRest := 0, timeContinuouslyActive := 0 }
      else agent'
    else agent'

/-- `updateAgentFatigueLogic`: the fatigue model applied to every agent. -/
def updateAgentFatigueLogic (currentAgents : List Agent) : List Agent :=
  currentAgents.map updateOneAgentFatigue

/-! ## Geometry utilities (`src/src/utils/mapUtils.ts`) -/

/-- The CCR region ring from `ccrData.ts`, verbatim: pairs as stored in the
GeoJSON `coordinates` array (which are `[lng, lat]` pairs). -/
def ccrPolygonRing : List (ℚ × ℚ) :=
  [(76.6500, 30.8500), (76.9000, 30.8500),
   (76.9000, 30.6000), (76.6500, 30.6000),
   (76.6500, 30.8500)]

/-- `isPointInPolygon` from `mapUtils.ts`: the ray-casting test, indexing
the point as `[lat, lng]` (`x = point[1]`, `y = point[0]`) and each vertex
the same way (`xi = v[1]`, `yi = v[0]`).  Edges pair index `i` with
`j = i - 1` (wrapping to the last vertex for `i = 0`), exactly as the
source's `for (i = 0, j = n - 1; i < n; j = i++)` loop does. -/
def isPointInPolygon (point : ℚ × ℚ) (polygonCoords : List (ℚ × ℚ)) : Bool :=
  let x := point.2
  let y := point.1
  let edges := polygonCoords.zip (polygonCoords.getLastD (0, 0) :: polygonCoords.dropLast)
  edges.foldl (fun inside e =>
    let xi := e.1.2
    let yi := e.1.1
    let xj := e.2.2
    let yj := e.2.1
    let intersect :=
      (decide (y < yi) != decide (y < yj)) &&
      decide (x < (xj - xi) * (y - yi) / (yj - yi) + xi)
    if intersect then !inside else inside) false

/-- Latitude of the south edge of `L.geoJSON(ccrGeoJsonPolygon).getBounds()`:
Leaflet reads GeoJSON pairs as `[lng, lat]`, so latitudes are the second
components of the ring entries. -/
def ccrBoundsSouth : ℚ := (ccrPolygonRing.map Prod.snd).foldl min 30.85

def ccrBoundsNorth : ℚ := (ccrPolygonRing.map Prod.snd).foldl max 30.85

def ccrBoundsWest : ℚ := (ccrPolygonRing.map Prod.fst).foldl min 76.65

def ccrBoundsEast : ℚ := (ccrPolygonRing.map Prod.fst).foldl max 76.65

/-- Attempt cap of `getRandomPointInCcr`. -/
def MAX_ATTEMPTS : ℕ := 200

/-- The `do ... while` loop of `getRandomPointInCcr`, with the random stream
explicit (`rand (2k)` and `rand (2k + 1)` are the two `Math.random()` draws
of iteration `k`).  Returns the chosen point together with the final value
of the `attempts` counter, i.e. the number of bounding-box samples drawn.
Each iteration draws a sample, increments `attempts`, falls back to the
default dark-store point when `attempts` exceeds the cap, and otherwise
exits when the sample passed the ray-casting test. -/
def getRandomPointInCcrGo (rand : ℕ → ℚ) : ℕ → ℕ → (ℚ × ℚ) × ℕ
  | 0, attempts =>
    ((defaultDarkStoreLocationSim.lat, defaultDarkStoreLocationSim.lng), attempts)
  | fuel + 1, attempts =>
    let point : ℚ × ℚ :=
      (rand (2 * attempts) * (ccrBoundsNorth - ccrBoundsSouth) + ccrBoundsSouth,
       rand (2 * attempts + 1) * (ccrBoundsEast - ccrBoundsWest) + ccrBoundsWest)
    let attempts' := attempts + 1
    if MAX_ATTEMPTS < attempts' then
      ((defaultDarkStoreLocationSim.lat, defaultDarkStoreLocationSim.lng), attempts')
    else if isPointInPolygon point ccrPolygonRing then (point, attempts')
    else getRandomPointInCcrGo rand fuel attempts'

/-- Entry point of the loop: the structural fuel `MAX_ATTEMPTS + 1 - attempts`
is exactly the number of iterations the source's `do ... while` can still
perform (the loop exits no later than `attempts = MAX_ATTEMPTS + 1`), so
`getRandomPointInCcrGo` performs exactly the source's iterations and its
fuel-exhausted base case is never reached. -/
def getRandomPointInCcrLoop (rand : ℕ → ℚ) (attempts : ℕ) : (ℚ × ℚ) × ℕ :=
  getRandomPointInCcrGo rand (MAX_ATTEMPTS + 1 - attempts) attempts

/-- `getRandomPointInCcr` from `mapUtils.ts`, as a function of the random
stream. -/
def getRandomPointInCcr (rand : ℕ → ℚ) : ℚ × ℚ :=
  (getRandomPointInCcrLoop rand 0).1

/-- Number of bounding-box samples `getRandomPointInCcr` draws from the
given random stream. -/
def getRandomPointInCcrSamples (rand : ℕ → ℚ) : ℕ :=
  (getRandomPointInCcrLoop rand 0).2

/-- `generateWaypoints` from `mapUtils.ts`: `numWaypoints` evenly spaced
interior points between the two endpoints, endpoints included.  Every call
site uses the default `numWaypoints = 2`. -/
def generateWaypoints (startLatLng endLatLng : LatLngQ) (numWaypoints : ℕ) : List LatLngQ :=
  let waypoints := (List.range numWaypoints).map (fun i =>
    let t : ℚ := (i + 1 : ℕ) / ((numWaypoints : ℚ) + 1)
    LatLngQ.mk (startLatLng.lat + (endLatLng.lat - startLatLng.lat) * t)
      (startLatLng.lng + (endLatLng.lng - startLatLng.lng) * t))
  startLatLng :: (waypoints ++ [endLatLng])

/-! ## Movement & delivery engine
(`updateAgentsMovementAndStatusLogic`, `src/unnamed/part_005`) -/

/-- Mutation of the first list element matching a predicate, as JavaScript's
`array.find(...)` followed by in-place mutation of the found object does. -/
def updateFirstBy (p : α → Bool) (f : α → α) : List α → List α
  | [] => []
  | x :: xs => if p x then f x :: xs else x :: updateFirstBy p f xs

/-- Removal of the first list element matching a predicate, as
`findIndex` + `splice(idx, 1)` does. -/
def removeFirstBy (p : α → Bool) : List α → List α
  | [] => []
  | x :: xs => if p x then xs else x :: removeFirstBy p xs

/-- Handling minutes before a store pickup completes. -/
def HANDLING_TIME_AT_STORE : ℚ := 5

/-- The `while (remainingDistanceInStep > 0 && currentLegIndex < length - 1)`
walk of the movement engine.  `distM` is the oracle for Leaflet's
`LatLng.distanceTo` (metres); the source divides it by 1000.  Returns the
final position, leg index and leg progress.  Legs shorter than one metre
are skipped; a leg the budget cannot finish is advanced fractionally, with
the position re-interpolated from the leg's start waypoint (the net effect
of the source's sequence of assignments). -/
def moveLoopGo (distM : LatLngQ → LatLngQ → ℚ) (routePath : List LatLngQ) :
    ℕ → LatLngQ → ℕ → ℚ → ℚ → LatLngQ × ℕ × ℚ
  | 0, pos, legIdx, legProgress, _ => (pos, legIdx, legProgress)
  | fuel + 1, pos, legIdx, legProgress, remaining =>
    if 0 < remaining then
      if h : legIdx < routePath.length - 1 then
        let startPoint := pos
        let endPointOfLeg := routePath.get ⟨legIdx + 1, by omega⟩
        let legTotalDistanceKm := distM startPoint endPointOfLeg / 1000
        if legTotalDistanceKm < 1 / 1000 then
          moveLoopGo distM routePath fuel pos (legIdx + 1) 0 remaining
        else
          let distanceToCoverOnThisLegKm := legTotalDistanceKm * (1 - legProgress)
          if distanceToCoverOnThisLegKm ≤ remaining then
            moveLoopGo distM routePath fuel endPointOfLeg (legIdx + 1) 0
              (remaining - distanceToCoverOnThisLegKm)
          else
            let newLegProgress := legProgress + remaining / legTotalDistanceKm
            let legStart := routePath.get ⟨legIdx, by omega⟩
            (LatLngQ.mk (legStart.lat + (endPointOfLeg.lat - legStart.lat) * newLegProgress)
               (legStart.lng + (endPointOfLeg.lng - legStart.lng) * newLegProgress),
             legIdx, newLegProgress)
      else (pos, legIdx, legProgress)
    else (pos, legIdx, legProgress)

/-- Entry point of the walk: the structural fuel `routePath.length - legIdx`
is exactly the number of legs the loop can still advance over, and every
iteration of the source's while loop either increments the leg index (so
the fuel invariant `fuel = length - legIdx` is maintained exactly) or
terminates, so the fuel-exhausted base case is reached only when the loop
guard is already false and returns the same triple the guard-false exit
does. -/
def moveLoop (distM : LatLngQ → LatLngQ → ℚ) (routePath : List LatLngQ)
    (pos : LatLngQ) (legIdx : ℕ) (legProgress remaining : ℚ) :
    LatLngQ × ℕ × ℚ :=
  moveLoopGo distM routePath (routePath.length - legIdx) pos legIdx legProgress remaining

/-- Result of moving one agent for one tick: the updated agent, the updated
order list, the orders delivered by this agent this tick, the delivery-time
increment, and the heatmap points to add. -/
structure AgentMoveResult where
  agent : Agent
  orders : List Order
  delivered : List Order
  deliveryTimeInc : ℤ
  heatmap : List HeatmapDataPoint

/-- The per-agent body of `updateAgentsMovementAndStatusLogic`, exactly as
in the source: idle accumulation for `available` agents; at-store dwell and
pickup for `at_store`; the early return when the route is empty or the leg
index already points at (or past) the final leg; the travel-budget walk via
`moveLoop`; and the arrival handling for `to_store` and `to_customer`. -/
def updateOneAgentMovement (distM : LatLngQ → LatLngQ → ℚ)
    (agentSpeedKmph trafficFactor : ℚ) (currentTime : ℕ)
    (darkStoreLocations : List LatLngQ)
    (orders : List Order) (agent : Agent) : AgentMoveResult :=
  if agent.status = AgentStatus.available then
    ⟨{ agent with timeSpentIdle := agent.timeSpentIdle + MINUTES_PER_SIMULATION_STEP },
     orders, [], 0, []⟩
  else
    let agent := { agent with
      timeContinuouslyActive := agent.timeContinuouslyActive + MINUTES_PER_SIMULATION_STEP }
    if agent.status = AgentStatus.at_store then
      let agent := { agent with
        timeSpentAtStore := agent.timeSpentAtStore + MINUTES_PER_SIMULATION_STEP,
        legProgress := agent.legProgress + (MINUTES_PER_SIMULATION_STEP : ℚ) }
      if HANDLING_TIME_AT_STORE ≤ agent.legProgress then
        match orders.find? (fun o => agent.currentOrder == some o.id) with
        | some order =>
            ⟨{ agent with status := AgentStatus.to_customer, legProgress := 0 },
             updateFirstBy (fun o => o.id == order.id)
               (fun o => { o with status := OrderStatus.picked_up }) orders,
             [], 0, []⟩
        | none =>
            ⟨{ agent with status := AgentStatus.available, currentOrder := none,
                          routePath := [] }, orders, [], 0, []⟩
      else ⟨agent, orders, [], 0, []⟩
    else
      -- agent is to_store or to_customer
      if agent.routePath = [] ∨ agent.routePath.length - 1 ≤ agent.currentLegIndex then
        ⟨agent, orders, [], 0, []⟩
      else
        let agent := { agent with
          timeSpentDelivering := agent.timeSpentDelivering + MINUTES_PER_SIMULATION_STEP }
        let effectiveSpeed := agentSpeedKmph * agent.fatigueFactor * trafficFactor
        if effectiveSpeed ≤ 1 / 100 then ⟨agent, orders, [], 0, []⟩
        else
          let distanceCoveredThisStep := effectiveSpeed / 60 * (MINUTES_PER_SIMULATION_STEP : ℚ)
          let agent := { agent with totalDistance := agent.totalDistance + distanceCoveredThisStep }
          let walked := moveLoop distM agent.routePath ⟨agent.lat, agent.lng⟩
            agent.currentLegIndex agent.legProgress distanceCoveredThisStep
          let agent := { agent with lat := walked.1.lat, lng := walked.1.lng,
                                    currentLegIndex := walked.2.1, legProgress := walked.2.2 }
          if agent.routePath.length - 1 ≤ agent.currentLegIndex then
            match orders.find? (fun o => agent.currentOrder == some o.id) with
            | none =>
                if agent.currentOrder.isSome then
                  -- task for a non-existent order: reset (agentActiveThisStep = false)
                  ⟨{ agent with status := AgentStatus.available, currentOrder := none,
                                routePath := [], timeContinuouslyActive := 0 },
                   orders, [], 0, []⟩
                else ⟨agent, orders, [], 0, []⟩
            | some order =>
                if agent.status = AgentStatus.to_store then
                  let storeCoords := agent.routePath.find? (fun p =>
                    darkStoreLocations.any (fun dsl => dsl.lat == p.lat && dsl.lng == p.lng))
                  let agent := { agent with status := AgentStatus.at_store }
                  let agent := match storeCoords with
                    | some sc => { agent with lat := sc.lat, lng := sc.lng }
                    | none => agent
                  let agent := { agent with legProgress := 0 }
                  ⟨agent,
                   updateFirstBy (fun o => o.id == order.id)
                     (fun o => { o with storeArrivalTime := some currentTime }) orders,
                   [], 0, []⟩
                else if agent.status = AgentStatus.to_customer then
                  let newDeliveryTime : ℤ := (currentTime : ℤ) - (order.timePlaced : ℤ)
                  let deliveredOrder := { order with
                    status := OrderStatus.delivered,
                    customerArrivalTime := some currentTime,
                    deliveryTime := some newDeliveryTime }
                  ⟨{ agent with status := AgentStatus.available, lat := order.lat,
                                lng := order.lng, currentOrder := none, routePath := [],
                                deliveriesCompleted := agent.deliveriesCompleted + 1,
                                consecutiveDeliveriesSinceRest :=
                                  agent.consecutiveDeliveriesSinceRest + 1,
                                timeContinuouslyActive := 0 },
                   updateFirstBy (fun o => o.id == order.id)
                     (fun o => { o with
                       status := OrderStatus.delivered,
                       customerArrivalTime := some currentTime,
                       deliveryTime := some newDeliveryTime }) orders,
                   [deliveredOrder], newDeliveryTime,
                   [⟨order.lat, order.lng, 1⟩]⟩
                else ⟨agent, orders, [], 0, []⟩
          else ⟨agent, orders, [], 0, []⟩

/-- Aggregate result of the movement engine over all agents. -/
structure MovementOutcome where
  updatedAgents : List Agent
  updatedOrders : List Order
  deliveredOrdersThisStep : List Order
  totalDeliveryTimeIncrement : ℤ
  heatmapPointsToAdd : List HeatmapDataPoint

/-- `updateAgentsMovementAndStatusLogic`: the agents are processed in array
order, later agents seeing the order mutations made by earlier ones. -/
def updateAgentsMovementAndStatusLogic (distM : LatLngQ → LatLngQ → ℚ)
    (agentSpeedKmph trafficFactor : ℚ) (currentTime : ℕ)
    (darkStoreLocations : List LatLngQ)
    (currentAgents : List Agent) (currentOrders : List Order) : MovementOutcome :=
  currentAgents.foldl (fun acc agent =>
    let r := updateOneAgentMovement distM agentSpeedKmph trafficFactor currentTime
      darkStoreLocations acc.updatedOrders agent
    { updatedAgents := acc.updatedAgents ++ [r.agent],
      updatedOrders := r.orders,
      deliveredOrdersThisStep := acc.deliveredOrdersThisStep ++ r.delivered,
      totalDeliveryTimeIncrement := acc.totalDeliveryTimeIncrement + r.deliveryTimeInc,
      heatmapPointsToAdd := acc.heatmapPointsToAdd ++ r.heatmap })
    ⟨[], currentOrders, [], 0, []⟩

/-! ## Dispatch assigner (`assignOrdersToAgentsLogic`, `src/unnamed/part_005`) -/

/-- The closest-dark-store scan for an order: a strict-`<` running minimum
over `darkStoreLocations` (the first store attaining the minimum wins, since
the source only replaces on `dist < closestDsDist`), falling back to the
first store or the default location when the list is empty.  `distK` is the
oracle for the haversine `getDistanceKm`. -/
def closestStoreStep (distK : LatLngQ → LatLngQ → ℚ) (order : Order)
    (acc : Option (LatLngQ × ℚ)) (dsLoc : LatLngQ) : Option (LatLngQ × ℚ) :=
  let dist := distK dsLoc ⟨order.lat, order.lng⟩
  match acc with
  | none => some (dsLoc, dist)
  | some (b, d) => if dist < d then some (dsLoc, dist) else some (b, d)

def selectClosestStore (distK : LatLngQ → LatLngQ → ℚ)
    (darkStoreLocations : List LatLngQ) (order : Order) : LatLngQ :=
  let best := darkStoreLocations.foldl (closestStoreStep distK order) none
  match best with
  | some (b, _) => b
  | none => darkStoreLocations.headD defaultDarkStoreLocationSim

/-- The estimated time-to-delivery the assigner computes for one agent:
travel to the store, a fixed 5-minute handling time, travel to the
customer, each travel time being distance over effective speed, in
minutes. -/
def agentEta (distK : LatLngQ → LatLngQ → ℚ) (agentSpeedKmph trafficFactor : ℚ)
    (storeCoords : LatLngQ) (order : Order) (agent : Agent) : ℚ :=
  let distAgentToStore := distK ⟨agent.lat, agent.lng⟩ storeCoords
  let distStoreToCustomer := distK storeCoords ⟨order.lat, order.lng⟩
  let effectiveSpeed := agentSpeedKmph * agent.fatigueFactor * trafficFactor
  let timeAgentToStore := distAgentToStore / effectiveSpeed * 60
  let timeAtStore : ℚ := 5
  let timeStoreToCustomer := distStoreToCustomer / effectiveSpeed * 60
  timeAgentToStore + timeAtStore + timeStoreToCustomer

/-- The best-agent scan of the assigner: iterate over the snapshot of
available agents, skip agents no longer `available` in the evolving agent
array and agents whose effective speed is at most `0.1` km/h, and keep a
strict-`<` running minimum of the ETA (first minimum wins). -/
def selectBestAgent (distK : LatLngQ → LatLngQ → ℚ) (agentSpeedKmph trafficFactor : ℚ)
    (modifiableAgents availableAgents : List Agent)
    (storeCoords : LatLngQ) (order : Order) : Option Agent :=
  (availableAgents.foldl (fun acc agent =>
    match modifiableAgents.find? (fun a => a.id == agent.id) with
    | none => acc
    | some agentInModifiableList =>
      if agentInModifiableList.status ≠ AgentStatus.available then acc
      else
        let effectiveSpeed := agentSpeedKmph * agent.fatigueFactor * trafficFactor
        if effectiveSpeed ≤ 1 / 10 then acc
        else
          let eta := agentEta distK agentSpeedKmph trafficFactor storeCoords order agent
          match acc with
          | none => some (agent, eta)
          | some (b, minEta) =>
            if eta < minEta then some (agent, eta) else some (b, minEta)) none).map Prod.fst

/-- State threaded through the per-order assignment loop: the mutable agent
and order arrays, and the shrinking available-agent pool. -/
structure AssignState where
  agents : List Agent
  orders : List Order
  avail : List Agent

/-- One iteration of the `pendingOrders.forEach` loop of the assigner. -/
def assignOneOrder (distK : LatLngQ → LatLngQ → ℚ) (agentSpeedKmph trafficFactor : ℚ)
    (darkStoreLocations : List LatLngQ) (st : AssignState) (order : Order) : AssignState :=
  let bestDarkStoreForOrder := selectClosestStore distK darkStoreLocations order
  match selectBestAgent distK agentSpeedKmph trafficFactor st.agents st.avail
      bestDarkStoreForOrder order with
  | none => st
  | some bestAgent =>
    if (st.orders.find? (fun o => o.id == order.id)).isSome ∧
       (st.agents.find? (fun a => a.id == bestAgent.id)).isSome then
      let newRoute :=
        generateWaypoints ⟨bestAgent.lat, bestAgent.lng⟩ bestDarkStoreForOrder 2 ++
        (generateWaypoints bestDarkStoreForOrder ⟨order.lat, order.lng⟩ 2).drop 1
      { agents := updateFirstBy (fun a => a.id == bestAgent.id)
          (fun a => { a with
            status := AgentStatus.to_store,
            currentOrder := some order.id, routePath := newRoute,
            currentLegIndex := 0, legProgress := 0 }) st.agents,
        orders := updateFirstBy (fun o => o.id == order.id)
          (fun o => { o with
            status := OrderStatus.assigned,
            assignedAgentId := some bestAgent.id }) st.orders,
        avail := removeFirstBy (fun a => a.id == bestAgent.id) st.avail }
    else st

/-- `assignOrdersToAgentsLogic`: every pending order is processed in list
order against the shrinking pool of available agents. -/
def assignOrdersToAgentsLogic (distK : LatLngQ → LatLngQ → ℚ)
    (agentSpeedKmph trafficFactor : ℚ) (darkStoreLocations : List LatLngQ)
    (currentAgents : List Agent) (currentOrders : List Order) :
    List Agent × List Order :=
  let pendingOrders := currentOrders.filter (fun o => o.status == OrderStatus.pending)
  let availableAgents := currentAgents.filter (fun a => a.status == AgentStatus.available)
  if pendingOrders = [] ∨ availableAgents = [] then (currentAgents, currentOrders)
  else
    let final := pendingOrders.foldl
      (assignOneOrder distK agentSpeedKmph trafficFactor darkStoreLocations)
      ⟨currentAgents, currentOrders, availableAgents⟩
    (final.agents, final.orders)

/-! ## Demand generator (`generateOrdersLogic`, `src/unnamed/part_005`) -/

/-- A named CCR sector (`ccrSectors` in `ccrData.ts`). -/
structure Sector where
  name : String
  coords : LatLngQ
deriving DecidableEq

/-- The sector catalogue from `ccrData.ts`. -/
def ccrSectors : List Sector :=
  [⟨"Sector 1", ⟨30.7497, 76.7939⟩⟩,
   ⟨"Sector 7", ⟨30.7452, 76.7852⟩⟩,
   ⟨"Sector 8", ⟨30.742, 76.7805⟩⟩,
   ⟨"Sector 9", ⟨30.7387, 76.7758⟩⟩,
   ⟨"Sector 10", ⟨30.7355, 76.7711⟩⟩,
   ⟨"Sector 11", ⟨30.7322, 76.7664⟩⟩,
   ⟨"Sector 17 (City Center)", ⟨30.74, 76.778⟩⟩,
   ⟨"Sector 22 (ISBT)", ⟨30.735, 76.77⟩⟩,
   ⟨"Sector 26 (Grain Mkt)", ⟨30.737, 76.8⟩⟩,
   ⟨"Sector 32 (GMCH)", ⟨30.715, 76.775⟩⟩,
   ⟨"Sector 34 (Comp. Mkt)", ⟨30.729, 76.781⟩⟩,
   ⟨"Sector 35", ⟨30.736, 76.784⟩⟩,
   ⟨"Sector 43 (ISBT)", ⟨30.725, 76.76⟩⟩,
   ⟨"Industrial Area Ph 1", ⟨30.715, 76.815⟩⟩,
   ⟨"Manimajra", ⟨30.73, 76.83⟩⟩,
   ⟨"Mohali Phase 3B2", ⟨30.708, 76.720⟩⟩,
   ⟨"Mohali Phase 7", ⟨30.705, 76.715⟩⟩,
   ⟨"Mohali Sector 70", ⟨30.702, 76.730⟩⟩,
   ⟨"Mohali IT Park (Sec 66/82)", ⟨30.685, 76.735⟩⟩,
   ⟨"Panchkula Sector 5", ⟨30.692, 76.855⟩⟩,
   ⟨"Panchkula Sector 11", ⟨30.705, 76.850⟩⟩,
   ⟨"Panchkula Ind. Area Ph 1", ⟨30.715, 76.860⟩⟩,
   ⟨"Zirakpur VIP Road", ⟨30.647, 76.825⟩⟩,
   ⟨"Zirakpur Patiala Chowk", ⟨30.630, 76.815⟩⟩,
   ⟨"New Chandigarh/Mullanpur", ⟨30.790, 76.700⟩⟩]

/-- `ZoneType` from `src/src/types.ts`. -/
inductive ZoneType where
  | uniform_ccr
  | hotspot
  | sector
  | route
deriving DecidableEq

/-- A demand zone (`DemandZone` from `src/src/types.ts`): the TypeScript
tagged union is flattened into one record with a discriminant, the
per-variant fields defaulting to the empty value when absent, which matches
how the generator's runtime dispatch reads them. -/
structure DemandZone where
  ztype : ZoneType
  minOrders : ℚ
  maxOrders : ℚ
  startTime : ℕ
  endTime : ℕ
  center : Option LatLngQ
  radius : ℚ
  sectors : List String
  routePath : List LatLngQ
  buffer : ℚ

/-- `CustomDemandProfile` from `src/src/types.ts`. -/
structure CustomDemandProfile where
  id : String
  zones : List DemandZone

/-- Oracle bundle for one invocation of the demand generator: the
`Math.random()` draws and the sampled points of the `mapUtils` helpers
(which are themselves randomized and trigonometric), indexed by the zone
position in the profile.  Index `0` doubles for the single draw of the
built-in default profiles. -/
structure GenEnv where
  baseRand : ℚ
  randCcrPoint : ℕ → LatLngQ
  randHotspotPoint : ℕ → LatLngQ → ℚ → LatLngQ
  zoneRateRand : ℕ → ℚ
  zoneBernRand : ℕ → ℚ
  zoneDsRand : ℕ → ℚ
  sectorRand : ℕ → ℚ
  routeSegRand : ℕ → ℚ
  routeTRand : ℕ → ℚ

/-- Base per-step spawn probability of the built-in default profiles. -/
def baseOrderRate : ℚ := 15 / 100

/-- Hotspot radius of the built-in focused profile. -/
def focusedRadiusKm : ℚ := 5

/-- A freshly spawned order: unique id from the counter, `pending`, all
timestamp fields null. -/
def mkNewOrder (oid : ℕ) (coords : LatLngQ) (currentTime : ℕ) : Order :=
  { id := oid, lat := coords.lat, lng := coords.lng, timePlaced := currentTime,
    status := OrderStatus.pending, assignedAgentId := none,
    storeArrivalTime := none, customerArrivalTime := none, deliveryTime := none }

/-- The body of the generator's `profile.zones.forEach` for the zone at
position `i`: active when the current time lies within the zone's window
(compared in absolute simulation minutes against `startTime * 60` and
`endTime * 60`), then a single Bernoulli draw against the expected order
count for the step decides whether one order spawns, placed according to
the zone type.  Returns the spawned orders, the updated id counter and the
generated-count increment. -/
def zoneSpawn (env : GenEnv) (darkStoreLocations : List LatLngQ)
    (primaryDarkStore : LatLngQ) (currentTime : ℕ) (counter : ℕ) (i : ℕ)
    (zone : DemandZone) : List Order × ℕ × ℕ :=
  if zone.startTime * 60 ≤ currentTime ∧ currentTime ≤ zone.endTime * 60 then
    let ordersPerHour := zone.minOrders + env.zoneRateRand i * (zone.maxOrders - zone.minOrders)
    let ordersThisStep := ordersPerHour * ((MINUTES_PER_SIMULATION_STEP : ℚ) / 60)
    if env.zoneBernRand i < ordersThisStep then
      let counter' := counter + 1
      let relevantDarkStore :=
        ((darkStoreLocations.get?
            (Int.toNat ⌊env.zoneDsRand i * darkStoreLocations.length⌋)).getD
          primaryDarkStore)
      let orderCoords : LatLngQ :=
        if zone.ztype = ZoneType.uniform_ccr then env.randCcrPoint i
        else if zone.ztype = ZoneType.hotspot then
          env.randHotspotPoint i (zone.center.getD relevantDarkStore) zone.radius
        else if zone.ztype = ZoneType.sector ∧ zone.sectors ≠ [] then
          let randomSectorName :=
            (zone.sectors.get? (Int.toNat ⌊env.sectorRand i * zone.sectors.length⌋)).getD ""
          match ccrSectors.find? (fun s => s.name == randomSectorName) with
          | some sectorData => env.randHotspotPoint i sectorData.coords (3 / 2)
          | none => env.randHotspotPoint i relevantDarkStore 5
        else if zone.ztype = ZoneType.route ∧ 1 < zone.routePath.length then
          let segIdx := Int.toNat ⌊env.routeSegRand i * ((zone.routePath.length : ℚ) - 1)⌋
          let p1 := (zone.routePath.get? segIdx).getD primaryDarkStore
          let p2 := (zone.routePath.get? (segIdx + 1)).getD primaryDarkStore
          let t := env.routeTRand i
          let mid : LatLngQ := ⟨p1.lat * (1 - t) + p2.lat * t, p1.lng * (1 - t) + p2.lng * t⟩
          env.randHotspotPoint i mid zone.buffer
        else env.randHotspotPoint i relevantDarkStore 5
      ([mkNewOrder counter' orderCoords currentTime], counter', 1)
    else ([], counter, 0)
  else ([], counter, 0)

/-- `generateOrdersLogic`: built-in default profiles spawn at most one order
per tick with probability `baseOrderRate`; a custom profile runs `zoneSpawn`
for each of its zones in order; an unknown profile id spawns nothing.
Returns `(newOrders, updatedOrderIdCounter, totalGeneratedIncrement)`. -/
def generateOrdersLogic (env : GenEnv) (currentOrderIdCounter : ℕ) (profileId : String)
    (currentTime : ℕ) (customProfiles : List CustomDemandProfile)
    (darkStoreLocations : List LatLngQ) : List Order × ℕ × ℕ :=
  let primaryDarkStore := darkStoreLocations.headD defaultDarkStoreLocationSim
  if profileId = "default_uniform_ccr" ∨ profileId = "default_focused_ccr" then
    if env.baseRand < baseOrderRate then
      let counter' := currentOrderIdCounter + 1
      let orderCoords :=
        if profileId = "default_uniform_ccr" then env.randCcrPoint 0
        else env.randHotspotPoint 0 primaryDarkStore focusedRadiusKm
      ([mkNewOrder counter' orderCoords currentTime], counter', 1)
    else ([], currentOrderIdCounter, 0)
  else
    match customProfiles.find? (fun p => p.id == profileId) with
    | none => ([], currentOrderIdCounter, 0)
    | some profile =>
      profile.zones.enum.foldl (fun acc iz =>
        let r := zoneSpawn env darkStoreLocations primaryDarkStore currentTime
          acc.2.1 iz.1 iz.2
        (acc.1 ++ r.1, r.2.1, acc.2.2 + r.2.2)) ([], currentOrderIdCounter, 0)

/-! ## Simulation state and orchestrator (`SimulationSection`, `src/unnamed/part_005`) -/

/-- The tick-relevant part of `SimulationState` from `src/src/types.ts`
(UI-only fields, cooldown bookkeeping and heatmap references omitted:
the tick pipeline never reads them). -/
structure SimState where
  isRunning : Bool
  agents : List Agent
  orders : List Order
  orderIdCounter : ℕ
  currentSimulationTime : ℕ
  currentDynamicTrafficFactor : ℚ
  totalOrdersGenerated : ℕ
  totalOrdersDelivered : ℕ
  totalDeliveryTime : ℤ
  totalAgentTravelDistance : ℚ
  darkStoreLocations : List LatLngQ

/-- The simulation parameters the tick pipeline reads. -/
structure SimParams where
  numAgents : ℕ
  agentSpeedKmph : ℚ
  orderGenProfileId : String
  baseTrafficFactor : ℚ
  enableDynamicTraffic : Bool

/-- One freshly initialized agent: jittered around the default dark store,
`available`, no order, empty route, fatigue `1.0`, all counters zero. -/
def initialAgent (jitter : ℕ → ℚ × ℚ) (i : ℕ) : Agent :=
  { id := i + 1,
    lat := defaultDarkStoreLocationSim.lat + ((jitter i).1 - 1 / 2) * (2 / 1000),
    lng := defaultDarkStoreLocationSim.lng + ((jitter i).2 - 1 / 2) * (2 / 1000),
    status := AgentStatus.available, currentOrder := none, routePath := [],
    legProgress := 0, currentLegIndex := 0, fatigueFactor := 1,
    consecutiveDeliveriesSinceRest := 0, timeContinuouslyActive := 0,
    totalDistance := 0, deliveriesCompleted := 0,
    timeSpentIdle := 0, timeSpentDelivering := 0, timeSpentAtStore := 0 }

/-- `initialSimState`: paused, fresh agents, no orders, clock zero, traffic
factor `1.0`, clustered store coordinates or the single default store. -/
def initialSimState (jitter : ℕ → ℚ × ℚ) (params : SimParams)
    (clusteredStores : List LatLngQ) : SimState :=
  { isRunning := false,
    agents := (List.range params.numAgents).map (initialAgent jitter),
    orders := [], orderIdCounter := 0, currentSimulationTime := 0,
    currentDynamicTrafficFactor := 1,
    totalOrdersGenerated := 0, totalOrdersDelivered := 0, totalDeliveryTime := 0,
    totalAgentTravelDistance := 0,
    darkStoreLocations :=
      if clusteredStores = [] then [defaultDarkStoreLocationSim] else clusteredStores }

/-- Oracle bundle for one orchestrator tick: the generator's draws, the
dynamic-traffic draw, and the two geodesic-distance oracles (`distK` for
the haversine `getDistanceKm`, `distM` for Leaflet's `distanceTo` in
metres). -/
structure StepEnv where
  gen : GenEnv
  trafficRand : ℚ
  distK : LatLngQ → LatLngQ → ℚ
  distM : LatLngQ → LatLngQ → ℚ

/-- `runSimulationStep`: a no-op when paused; otherwise, in strict order:
advance the clock by 5 minutes, optionally refresh the dynamic traffic
factor every 12th tick, generate orders, assign pending orders, move all
agents (collecting delivered orders and the delivery-time increment),
accumulate the KPI counters, and finally update fatigue.  The state's
`darkStoreLocations` is always set by initialization, so the source's
`|| [defaultDarkStoreLocationSim]` fallback is the identity here. -/
def runSimulationStep (env : StepEnv) (params : SimParams)
    (customProfiles : List CustomDemandProfile) (prevState : SimState) : SimState :=
  if !prevState.isRunning then prevState
  else
    let time := prevState.currentSimulationTime + MINUTES_PER_SIMULATION_STEP
    let traffic :=
      if params.enableDynamicTraffic ∧
         (time / MINUTES_PER_SIMULATION_STEP) % DYNAMIC_TRAFFIC_UPDATE_INTERVAL_STEPS = 0
      then 3 / 5 + env.trafficRand * (4 / 5)
      else prevState.currentDynamicTrafficFactor
    let genRes := generateOrdersLogic env.gen prevState.orderIdCounter
      params.orderGenProfileId time customProfiles prevState.darkStoreLocations
    let orders1 := prevState.orders ++ genRes.1
    let trafficUsed := if params.enableDynamicTraffic then traffic else params.baseTrafficFactor
    let assigned := assignOrdersToAgentsLogic env.distK params.agentSpeedKmph trafficUsed
      prevState.darkStoreLocations prevState.agents orders1
    let mv := updateAgentsMovementAndStatusLogic env.distM params.agentSpeedKmph trafficUsed
      time prevState.darkStoreLocations assigned.1 assigned.2
    let distKpi := mv.deliveredOrdersThisStep.foldl (fun acc o =>
      acc + env.distK (prevState.darkStoreLocations.headD defaultDarkStoreLocationSim)
        ⟨o.lat, o.lng⟩) 0
    { prevState with
      currentSimulationTime := time,
      currentDynamicTrafficFactor := traffic,
      orderIdCounter := genRes.2.1,
      totalOrdersGenerated := prevState.totalOrdersGenerated + genRes.2.2,
      orders := mv.updatedOrders,
      agents := updateAgentFatigueLogic mv.updatedAgents,
      totalOrdersDelivered := prevState.totalOrdersDelivered + mv.deliveredOrdersThisStep.length,
      totalDeliveryTime := prevState.totalDeliveryTime + mv.totalDeliveryTimeIncrement,
      totalAgentTravelDistance := prevState.totalAgentTravelDistance + distKpi }

/-- The reachable simulation states for a fixed parameter set and custom
profile list: initialization (with any agent-position jitter and any
clustered store list), toggling the run flag (start/pause), and orchestrator
ticks under arbitrary oracles. -/
inductive Reachable (params : SimParams) (customProfiles : List CustomDemandProfile) :
    SimState → Prop where
  | init (jitter : ℕ → ℚ × ℚ) (clusteredStores : List LatLngQ) :
      Reachable params customProfiles (initialSimState jitter params clusteredStores)
  | setRunning (b : Bool) {s : SimState} :
      Reachable params customProfiles s →
      Reachable params customProfiles { s with isRunning := b }
  | step (env : StepEnv) {s : SimState} :
      Reachable params customProfiles s →
      Reachable params customProfiles (runSimulationStep env params customProfiles s)

/-! ## Optimization sweep (`simplifiedSimulationRun`, `src/unnamed/part_004`) -/

/-- The simplified per-order record of the optimization sweep. -/
structure OptOrder where
  id : ℕ
  lat : ℚ
  lng : ℚ
  timePlaced : ℕ
  status : OrderStatus
  deliveryTime : Option ℚ
deriving DecidableEq

/-- The simplified agent of the optimization sweep. -/
structure OptAgent where
  availableAtTime : ℚ
  totalActiveTimeThisRun : ℚ
  distanceThisRun : ℚ
deriving DecidableEq

/-- `SimplifiedSimRunStats` from `src/src/types.ts`. -/
structure SimplifiedSimRunStats where
  deliveredOrders : ℕ
  totalDeliveryTime : ℚ
  avgUtilization : ℚ
  ordersMeetingSLA : ℕ
  generatedOrders : ℕ
  totalDistanceKm : ℚ
deriving DecidableEq

/-- Oracle bundle for one `simplifiedSimulationRun`: per-step per-zone rate
draws, the per-step rounding draw, per-order placements, and the haversine
oracle. -/
structure OptEnv where
  zoneRateRand : ℕ → ℕ → ℚ
  roundRand : ℕ → ℚ
  placement : ℕ → LatLngQ
  distK : LatLngQ → LatLngQ → ℚ

/-- The step times of the sweep's generation loop:
`t_step = 0, 5, 10, ...` while `t_step < maxSimTime`. -/
def optGenStepTimes (maxSimTime : ℕ) : List ℕ :=
  (List.range ((maxSimTime + MINUTES_PER_SIMULATION_STEP - 1) / MINUTES_PER_SIMULATION_STEP)).map
    (· * MINUTES_PER_SIMULATION_STEP)

/-- The sweep's expected order count for one step: over a custom profile the
sum of the active zones' drawn hourly rates scaled to the step, otherwise a
flat default rate per minute (`0.6` for the peak profile, `0.25`
otherwise) times the step length. -/
def optOrdersThisStepRaw (env : OptEnv) (profile : Option CustomDemandProfile)
    (demandProfileId : String) (sIdx : ℕ) (tStep : ℕ) : ℚ :=
  match profile with
  | some p =>
    (p.zones.enum.foldl (fun acc iz =>
      if iz.2.startTime * 60 ≤ tStep ∧ tStep ≤ iz.2.endTime * 60 then
        acc + (iz.2.minOrders + env.zoneRateRand sIdx iz.1 * (iz.2.maxOrders - iz.2.minOrders)) *
          ((MINUTES_PER_SIMULATION_STEP : ℚ) / 60)
      else acc) 0)
  | none =>
    (if demandProfileId = "default_opt_peak_ccr" then (6 : ℚ) / 10 else (25 : ℚ) / 100) *
      (MINUTES_PER_SIMULATION_STEP : ℚ)

/-- The sweep's fractional rounding: round the expected count up when the
rounding draw falls below its fractional part, down otherwise (clamped at
zero, as the source's `for (i = 0; i < n; i++)` loop runs zero times for a
negative bound). -/
def optRound (r : ℚ) (ordersThisStep : ℚ) : ℕ :=
  if r < ordersThisStep - ⌊ordersThisStep⌋ then Int.toNat ⌈ordersThisStep⌉
  else Int.toNat ⌊ordersThisStep⌋

/-- The generation phase of `simplifiedSimulationRun`: returns
`(orders, orderIdCounter, generatedOrders)`. -/
def optGenerateOrders (env : OptEnv) (profile : Option CustomDemandProfile)
    (demandProfileId : String) (maxSimTime : ℕ) : List OptOrder × ℕ × ℕ :=
  (optGenStepTimes maxSimTime).enum.foldl (fun acc st =>
    let raw := optOrdersThisStepRaw env profile demandProfileId st.1 st.2
    let n := optRound (env.roundRand st.1) raw
    (List.range n).foldl (fun acc2 _ =>
      let counter' := acc2.2.1 + 1
      let coords := env.placement counter'
      (acc2.1 ++ [({ id := counter', lat := coords.lat, lng := coords.lng,
                     timePlaced := st.2, status := OrderStatus.pending,
                     deliveryTime := none } : OptOrder)],
       counter', acc2.2.2 + 1)) acc) ([], 0, 0)

/-- Accumulator of the sweep's event-driven delivery loop. -/
structure OptLoopState where
  agents : List OptAgent
  currentTime : ℚ
  deliveredOrders : ℕ
  totalDeliveryTime : ℚ
  ordersMeetingSLA : ℕ
  totalDistanceKm : ℚ

/-- The earliest-available-agent scan: a strict-`<` running minimum over
`availableAtTime` (first minimum wins), as the source's `forEach` against an
`Infinity` sentinel. -/
def optEarliestAgent (agents : List OptAgent) : Option (ℕ × ℚ) :=
  (agents.enum.foldl (fun acc ia =>
    match acc with
    | none => some (ia.1, ia.2.availableAtTime)
    | some (bi, bt) =>
      if ia.2.availableAtTime < bt then some (ia.1, ia.2.availableAtTime)
      else some (bi, bt)) none)

/-- The sweep's delivery loop over the chronologically sorted orders:
stop once the clock passed the horizon; engage the earliest-free agent at
`max(timePlaced, availableAtTime)`; skip orders engaged or completed past
the horizon; otherwise deliver at store-to-customer distance over a fixed
20 km/h, plus handling.  (The source also marks the order object delivered;
that mutation is invisible in the returned stats.) -/
def optDeliveryLoop (env : OptEnv) (darkStoreCoords : LatLngQ) (maxSimTime : ℕ)
    (targetSLA : ℚ) (st : OptLoopState) : List OptOrder → OptLoopState
  | [] => st
  | order :: rest =>
    if (maxSimTime : ℚ) < st.currentTime then st
    else
      match optEarliestAgent st.agents with
      | none => optDeliveryLoop env darkStoreCoords maxSimTime targetSLA st rest
      | some (earliestAgentIndex, availTime) =>
        let engagementTime := max (order.timePlaced : ℚ) availTime
        if (maxSimTime : ℚ) < engagementTime then
          optDeliveryLoop env darkStoreCoords maxSimTime targetSLA st rest
        else
          let st := { st with currentTime := engagementTime }
          let distStoreToCustomer := env.distK darkStoreCoords ⟨order.lat, order.lng⟩
          let travelTime := distStoreToCustomer / 20 * 60
          let deliveryDuration := travelTime + BASE_HANDLING_TIME_MIN_OPT
          let completionTime := st.currentTime + deliveryDuration
          if (maxSimTime : ℚ) < completionTime then
            optDeliveryLoop env darkStoreCoords maxSimTime targetSLA st rest
          else
            let deliveryTime := completionTime - (order.timePlaced : ℚ)
            let st := { st with
              deliveredOrders := st.deliveredOrders + 1,
              totalDeliveryTime := st.totalDeliveryTime + deliveryTime,
              ordersMeetingSLA :=
                if deliveryTime ≤ targetSLA then st.ordersMeetingSLA + 1
                else st.ordersMeetingSLA,
              totalDistanceKm := st.totalDistanceKm + distStoreToCustomer,
              agents := st.agents.set earliestAgentIndex
                { availableAtTime := completionTime,
                  totalActiveTimeThisRun :=
                    ((st.agents.get? earliestAgentIndex).getD
                      ⟨0, 0, 0⟩).totalActiveTimeThisRun + deliveryDuration,
                  distanceThisRun :=
                    ((st.agents.get? earliestAgentIndex).getD
                      ⟨0, 0, 0⟩).distanceThisRun + distStoreToCustomer } }
            optDeliveryLoop env darkStoreCoords maxSimTime targetSLA st rest

/-- `simplifiedSimulationRun`: generate, fix up `generatedOrders` so the
downstream completion-rate division has a non-zero denominator, sort by
`timePlaced` (stable), run the delivery loop, and aggregate the stats.  In
the rationals `0 / 0 = 0`, which coincides with the source's
`isNaN(avgUtilization) ? 0 : avgUtilization` substitution. -/
def simplifiedSimulationRun (env : OptEnv) (numAgents : ℕ) (darkStoreCoords : LatLngQ)
    (customDemandProfiles : List CustomDemandProfile) (demandProfileId : String)
    (maxSimTime : ℕ) (targetSLA : ℚ) : SimplifiedSimRunStats :=
  let profile := customDemandProfiles.find? (fun p => p.id == demandProfileId)
  let gen := optGenerateOrders env profile demandProfileId maxSimTime
  let orders := gen.1
  let generatedOrders :=
    if gen.2.2 = 0 ∧ orders ≠ [] then orders.length
    else gen.2.2
  let generatedOrders := if generatedOrders = 0 then 1 else generatedOrders
  let sorted := orders.mergeSort (fun a b => a.timePlaced ≤ b.timePlaced)
  let agents := (List.range numAgents).map (fun _ => (⟨0, 0, 0⟩ : OptAgent))
  let final := optDeliveryLoop env darkStoreCoords maxSimTime targetSLA
    ⟨agents, 0, 0, 0, 0, 0⟩ sorted
  let totalAgentActiveTimeThisRun :=
    final.agents.foldl (fun acc a => acc + a.totalActiveTimeThisRun) 0
  let avgUtilization :=
    totalAgentActiveTimeThisRun / ((numAgents : ℚ) * (maxSimTime : ℚ)) * 100
  { deliveredOrders := final.deliveredOrders,
    totalDeliveryTime := final.totalDeliveryTime,
    avgUtilization := avgUtilization,
    ordersMeetingSLA := final.ordersMeetingSLA,
    generatedOrders := generatedOrders,
    totalDistanceKm := final.totalDistanceKm }

/-- The completion-rate aggregation of `runOptimization`: guarded division,
zero when nothing was generated. -/
def completionRate (totalDelivered totalGenerated : ℚ) : ℚ :=
  if 0 < totalGenerated then totalDelivered / totalGenerated * 100 else 0

/-! ## Invariants -/

/-- The agent-state linkage of the spec: `available` iff no held order iff
empty route. -/
def agentLink (a : Agent) : Prop :=
  (a.status = AgentStatus.available ↔ a.currentOrder = none) ∧
  (a.status = AgentStatus.available ↔ a.routePath = [])

/-- The leg-index saturation fact that makes the delivery branch
unreachable: once an agent is `at_store` or `to_customer`, its leg index
already points at (or past) the final leg of its concatenated route. -/
def agentLegSat (a : Agent) : Prop :=
  a.status = AgentStatus.at_store ∨ a.status = AgentStatus.to_customer →
    a.routePath = [] ∨ a.routePath.length - 1 ≤ a.currentLegIndex

/-- Fatigue stays in the `[0.5, 1.0]` band. -/
def agentFatigueBand (a : Agent) : Prop :=
  1 / 2 ≤ a.fatigueFactor ∧ a.fatigueFactor ≤ 1

/-- The full per-agent invariant. -/
def agentInv (a : Agent) : Prop :=
  agentFatigueBand a ∧ agentLink a ∧ agentLegSat a

/-- The per-order invariant at clock time `t`: never `delivered`, placed in
the past, store arrival (when stamped) between placement and now, and the
delivery-side fields never stamped. -/
def orderInv (t : ℕ) (o : Order) : Prop :=
  o.status ≠ OrderStatus.delivered ∧ o.timePlaced ≤ t ∧
  (∀ ts, o.storeArrivalTime = some ts → o.timePlaced ≤ ts ∧ ts ≤ t) ∧
  o.customerArrivalTime = none ∧ o.deliveryTime = none

/-- The simulation-state invariant. -/
def Inv (s : SimState) : Prop :=
  (∀ a ∈ s.agents, agentInv a) ∧
  (∀ o ∈ s.orders, orderInv s.currentSimulationTime o) ∧
  s.totalOrdersDelivered = 0

/-- Well-formedness of one agent's movement result. -/
def MoveResultOk (t : ℕ) (r : AgentMoveResult) : Prop :=
  agentInv r.agent ∧ (∀ o ∈ r.orders, orderInv t o) ∧ r.delivered = [] ∧
  r.deliveryTimeInc = 0

/-- Fixed oracles for the concrete runs: zero distances, all placements at
the default store, all draws zero. -/
def exGenEnv : GenEnv :=
  { baseRand := 0,
    randCcrPoint := fun _ => defaultDarkStoreLocationSim,
    randHotspotPoint := fun _ _ _ => defaultDarkStoreLocationSim,
    zoneRateRand := fun _ => 0, zoneBernRand := fun _ => 0,
    zoneDsRand := fun _ => 0, sectorRand := fun _ => 0,
    routeSegRand := fun _ => 0, routeTRand := fun _ => 0 }

/-- Oracle bundle for the concrete ticks. -/
def exEnv : StepEnv :=
  { gen := exGenEnv, trafficRand := 0,
    distK := fun _ _ => 0, distM := fun _ _ => 0 }

/-- Jitter draws of `1/2`, placing every initial agent exactly on the
default dark store. -/
def exJitter : ℕ → ℚ × ℚ := fun _ => (1 / 2, 1 / 2)

/-- One agent at 25 km/h on the built-in uniform profile, static traffic. -/
def exParams : SimParams :=
  { numAgents := 1, agentSpeedKmph := 25, orderGenProfileId := "default_uniform_ccr",
    baseTrafficFactor := 1, enableDynamicTraffic := false }

/-- The initial state of the concrete scenario. -/
def exState0 : SimState := initialSimState exJitter exParams []

/-- After one tick: the order generated at `t = 5` was assigned, and the
agent walked its whole 7-waypoint route (all legs degenerate under the
zero-distance oracle) and arrived at the store. -/
def exState1 : SimState :=
  runSimulationStep exEnv exParams [] { exState0 with isRunning := true }

/-- After two ticks: the at-store dwell reached 5 minutes, the order was
picked up and the agent turned `to_customer`. -/
def exState2 : SimState := runSimulationStep exEnv exParams [] exState1

/-- After three ticks. -/
def exState3 : SimState := runSimulationStep exEnv exParams [] exState2

/-- Fallback agent for `headD`. -/
def exDefaultAgent : Agent := initialAgent exJitter 0

/-- Literal form of the default store coordinates. -/
def exStorePt : LatLngQ := ⟨307333/10000, 383897/5000⟩

/-- Literal form of the initial agent of the concrete scenario. -/
def exAgentLit0 : Agent :=
  { id := 1, lat := 307333/10000, lng := 383897/5000,
    status := AgentStatus.available, currentOrder := none, routePath := [],
    legProgress := 0, currentLegIndex := 0, fatigueFactor := 1,
    consecutiveDeliveriesSinceRest := 0, timeContinuouslyActive := 0,
    totalDistance := 0, deliveriesCompleted := 0,
    timeSpentIdle := 0, timeSpentDelivering := 0, timeSpentAtStore := 0 }

/-- Literal form of the initial state of the concrete scenario. -/
def exStateLit0 : SimState :=
  { isRunning := false, agents := [exAgentLit0], orders := [],
    orderIdCounter := 0, currentSimulationTime := 0, currentDynamicTrafficFactor := 1,
    totalOrdersGenerated := 0, totalOrdersDelivered := 0, totalDeliveryTime := 0,
    totalAgentTravelDistance := 0, darkStoreLocations := [exStorePt] }

/-- The degenerate 7-waypoint route of the concrete scenario (agent, store
and customer coincide). -/
def exRouteLit : List LatLngQ :=
  [exStorePt, exStorePt, exStorePt, exStorePt, exStorePt, exStorePt, exStorePt]

/-- The concrete agent after tick 1: it walked its whole concatenated route
within the tick and is `at_store` with the leg index already at the final
leg and the route still installed. -/
def exAgentArrived : Agent :=
  { id := 1, lat := 307333/10000, lng := 383897/5000,
    status := AgentStatus.at_store, currentOrder := some 1, routePath := exRouteLit,
    legProgress := 0, currentLegIndex := 6, fatigueFactor := 1,
    consecutiveDeliveriesSinceRest := 0, timeContinuouslyActive := 5,
    totalDistance := 25/12, deliveriesCompleted := 0,
    timeSpentIdle := 0, timeSpentDelivering := 5, timeSpentAtStore := 0 }

/-- The concrete order after tick 1: assigned, store arrival stamped. -/
def exOrderArrived : Order :=
  { id := 1, lat := 307333/10000, lng := 383897/5000, timePlaced := 5,
    status := OrderStatus.assigned, assignedAgentId := some 1,
    storeArrivalTime := some 5, customerArrivalTime := none, deliveryTime := none }

/-- Literal form of the state after tick 1. -/
def exStateLit1 : SimState :=
  { isRunning := true, agents := [exAgentArrived], orders := [exOrderArrived],
    orderIdCounter := 1, currentSimulationTime := 5, currentDynamicTrafficFactor := 1,
    totalOrdersGenerated := 1, totalOrdersDelivered := 0, totalDeliveryTime := 0,
    totalAgentTravelDistance := 0, darkStoreLocations := [exStorePt] }

/-! ### Concrete inputs for the dispatch-assigner analysis -/

/-- A two-valued distance oracle: zero between equal points, one kilometre
otherwise (the shape any distance, the haversine included, has on
coinciding/distinct points). -/
def distEx : LatLngQ → LatLngQ → ℚ := fun p q => if p = q then 0 else 1

/-- A fatigued agent standing exactly on the store. -/
def exSlowAgent : Agent :=
  { exAgentLit0 with id := 1, lat := 0, lng := 0, fatigueFactor := 1/2 }

/-- A fresh agent away from the store. -/
def exFastAgent : Agent :=
  { exAgentLit0 with id := 2, lat := 3, lng := 4, fatigueFactor := 1 }

/-- A pending order placed exactly on the store at the origin. -/
def exOrderAtStore : Order :=
  { id := 7, lat := 0, lng := 0, timePlaced := 0, status := OrderStatus.pending,
    assignedAgentId := none, storeArrivalTime := none, customerArrivalTime := none,
    deliveryTime := none }

/-- The eligibility test the assigner's best-agent scan applies before an
agent's ETA is even computed: still `available` in the evolving agent
array, and effective speed strictly above 0.1 km/h. -/
def agentEligibleB (modifiableAgents : List Agent) (agentSpeedKmph trafficFactor : ℚ)
    (agent : Agent) : Bool :=
  (match modifiableAgents.find? (fun a => a.id == agent.id) with
   | some a => a.status == AgentStatus.available
   | none => false) &&
  decide (1 / 10 < agentSpeedKmph * agent.fatigueFactor * trafficFactor)

/-! ### Concrete inputs for the demand-generator analysis -/

/-- A uniform zone demanding a constant 30 orders/hour, active all day. -/
def exHeavyZone : DemandZone :=
  { ztype := ZoneType.uniform_ccr, minOrders := 30, maxOrders := 30,
    startTime := 0, endTime := 23, center := none, radius := 0,
    sectors := [], routePath := [], buffer := 0 }

/-! ### Concrete inputs for the sampling and sweep analyses -/

/-- The all-zeroes random stream. -/
def randZero : ℕ → ℚ := fun _ => 0

/-- Zero oracles for the optimization sweep. -/
def exOptEnv : OptEnv :=
  { zoneRateRand := fun _ _ => 0, roundRand := fun _ => 0,
    placement := fun _ => defaultDarkStoreLocationSim, distK := fun _ _ => 0 }

/-- A custom demand profile with no zones: zero demand. -/
def exEmptyProfile : CustomDemandProfile := { id := "empty", zones := [] }

/-- The running-minimum fold underlying the assigner's best-agent scan. -/
def runningMinFold (eta : Agent → ℚ) (acc : Option (Agent × ℚ)) (l : List Agent) :
    Option (Agent × ℚ) :=
  l.foldl (fun acc a =>
    match acc with
    | none => some (a, eta a)
    | some (b, m) => if eta a < m then some (a, eta a) else some (b, m)) acc

/-! ## Lemmas -/

lemma orderInv_mono {t t' : ℕ} (h : t ≤ t') {o : Order} (ho : orderInv t o) :
    orderInv t' o := by
  obtain ⟨h1, h2, h3, h4, h5⟩ := ho
  exact ⟨h1, h2.trans h, fun ts hts => ⟨(h3 ts hts).1, (h3 ts hts).2.trans h⟩, h4, h5⟩

/-! ### List-surgery helpers -/

lemma mem_updateFirstBy {p : α → Bool} {f : α → α} {l : List α} {y : α}
    (hy : y ∈ updateFirstBy p f l) : y ∈ l ∨ ∃ x ∈ l, y = f x := by
  induction l with
  | nil => simp [updateFirstBy] at hy
  | cons x xs ih =>
    simp only [updateFirstBy] at hy
    by_cases hp : p x
    · simp only [hp, if_true, List.mem_cons] at hy
      rcases hy with h | h
      · exact Or.inr ⟨x, List.mem_cons_self x xs, h⟩
      · exact Or.inl (List.mem_cons_of_mem x h)
    · rw [if_neg hp] at hy
      rcases List.mem_cons.mp hy with h | h
      · exact Or.inl (h ▸ List.mem_cons_self x xs)
      · rcases ih h with h' | ⟨z, hz, hzy⟩
        · exact Or.inl (List.mem_cons_of_mem x h')
        · exact Or.inr ⟨z, List.mem_cons_of_mem x hz, hzy⟩

lemma forall_mem_updateFirstBy {P : α → Prop} {p : α → Bool} {f : α → α} {l : List α}
    (hl : ∀ x ∈ l, P x) (hf : ∀ x ∈ l, P (f x)) :
    ∀ y ∈ updateFirstBy p f l, P y := by
  intro y hy
  rcases mem_updateFirstBy hy with h | ⟨x, hx, rfl⟩
  · exact hl y h
  · exact hf x hx

lemma mem_removeFirstBy {p : α → Bool} {l : List α} {y : α}
    (hy : y ∈ removeFirstBy p l) : y ∈ l := by
  induction l with
  | nil => simp [removeFirstBy] at hy
  | cons x xs ih =>
    simp only [removeFirstBy] at hy
    by_cases hp : p x
    · rw [if_pos hp] at hy
      exact List.mem_cons_of_mem x hy
    · rw [if_neg hp] at hy
      rcases List.mem_cons.mp hy with h | h
      · exact h ▸ List.mem_cons_self x xs
      · exact List.mem_cons_of_mem x (ih h)

/-! ### Fatigue-model lemmas -/

/-- A busy agent's fatigue factor never increases across one fatigue
update. -/
lemma fatigue_busy_nonincreasing {a : Agent} (h : a.status ≠ AgentStatus.available) :
    (updateOneAgentFatigue a).fatigueFactor ≤ a.fatigueFactor := by
  rw [updateOneAgentFatigue, if_neg h]
  dsimp only
  split_ifs with h1 h2
  · dsimp only
    refine max_le (by linarith) ?_
    unfold FATIGUE_FACTOR_REDUCTION
    linarith
  · exact le_refl _
  · exact le_refl _

/-- An idle agent's fatigue factor never decreases across one fatigue
update. -/
lemma fatigue_idle_nondecreasing {a : Agent} (h : a.status = AgentStatus.available) :
    a.fatigueFactor ≤ (updateOneAgentFatigue a).fatigueFactor := by
  rw [updateOneAgentFatigue, if_pos h]
  dsimp only
  split_ifs with h1 h2
  · dsimp only
    exact le_of_lt h2
  · exact le_refl _
  · exact le_refl _

/-- The fatigue update keeps the fatigue factor inside `[0.5, 1.0]`. -/
lemma fatigue_band_preserved {a : Agent} (h : agentFatigueBand a) :
    agentFatigueBand (updateOneAgentFatigue a) := by
  obtain ⟨h1, h2⟩ := h
  unfold agentFatigueBand updateOneAgentFatigue
  dsimp only
  split_ifs <;> try dsimp only
  · constructor
    · refine le_min (by norm_num) ?_
      unfold FATIGUE_FACTOR_RECOVERY_RATE
      linarith
    · exact min_le_left _ _
  · exact ⟨h1, h2⟩
  · exact ⟨h1, h2⟩
  · constructor
    · exact le_max_left _ _
    · refine max_le (by norm_num) ?_
      unfold FATIGUE_FACTOR_REDUCTION
      linarith
  · exact ⟨h1, h2⟩
  · exact ⟨h1, h2⟩

/-- The fatigue update touches neither status, held order, route, nor leg
index. -/
lemma fatigue_skeleton (a : Agent) :
    (updateOneAgentFatigue a).status = a.status ∧
    (updateOneAgentFatigue a).currentOrder = a.currentOrder ∧
    (updateOneAgentFatigue a).routePath = a.routePath ∧
    (updateOneAgentFatigue a).currentLegIndex = a.currentLegIndex := by
  rw [updateOneAgentFatigue]
  dsimp only
  split_ifs <;> simp

lemma fatigue_agentInv {a : Agent} (h : agentInv a) :
    agentInv (updateOneAgentFatigue a) := by
  obtain ⟨hband, hlink, hsat⟩ := h
  obtain ⟨hs, hc, hr, hi⟩ := fatigue_skeleton a
  refine ⟨fatigue_band_preserved hband, ⟨?_, ?_⟩, ?_⟩
  · rw [hs, hc]; exact hlink.1
  · rw [hs, hr]; exact hlink.2
  · intro hst
    rw [hs] at hst
    rw [hr, hi]
    exact hsat hst

/-! ## Preservation lemmas -/

lemma moveResultOk_mk {t : ℕ} {a : Agent} {os d : List Order} {inc : ℤ}
    {hm : List HeatmapDataPoint} :
    MoveResultOk t ⟨a, os, d, inc, hm⟩ ↔
      agentInv a ∧ (∀ o ∈ os, orderInv t o) ∧ d = [] ∧ inc = 0 := Iff.rfl

lemma orderInv_set_pickedUp {t : ℕ} {o : Order} (h : orderInv t o) :
    orderInv t { o with status := OrderStatus.picked_up } := by
  obtain ⟨_, h2, h3, h4, h5⟩ := h
  exact ⟨by simp, h2, h3, h4, h5⟩

lemma orderInv_set_assigned {t : ℕ} {o : Order} {aid : ℕ} (h : orderInv t o) :
    orderInv t { o with status := OrderStatus.assigned, assignedAgentId := some aid } := by
  obtain ⟨_, h2, h3, h4, h5⟩ := h
  exact ⟨by simp, h2, h3, h4, h5⟩

lemma orderInv_set_storeArrival {t : ℕ} {o : Order} (h : orderInv t o) :
    orderInv t { o with storeArrivalTime := some t } := by
  obtain ⟨h1, h2, h3, h4, h5⟩ := h
  refine ⟨h1, h2, ?_, h4, h5⟩
  intro ts hts
  simp only [Option.some.injEq] at hts
  exact hts ▸ ⟨h2, le_refl t⟩

lemma updateOneAgentMovement_inv (distM : LatLngQ → LatLngQ → ℚ)
    (speed traffic : ℚ) (t : ℕ) (stores : List LatLngQ)
    (orders : List Order) (agent : Agent)
    (ha : agentInv agent) (ho : ∀ o ∈ orders, orderInv t o) :
    MoveResultOk t (updateOneAgentMovement distM speed traffic t stores orders agent) := by
  obtain ⟨hband, ⟨hl1, hl2⟩, hsat⟩ := ha
  unfold agentLegSat at hsat
  rw [updateOneAgentMovement]
  cases hst : agent.status with
  | available =>
    rw [hst] at hl1 hl2
    simp only [true_iff] at hl1 hl2
    rw [if_pos rfl]
    refine ⟨⟨hband, ⟨?_, ?_⟩, ?_⟩, ho, rfl, rfl⟩
    · dsimp only
      simp [hl1]
    · dsimp only
      simp [hl2]
    · unfold agentLegSat
      dsimp only
      simp
  | at_store =>
    rw [hst] at hl1 hl2 hsat
    simp only [show (AgentStatus.at_store = AgentStatus.available) = False by simp,
      false_iff] at hl1 hl2
    have hsat' := hsat (Or.inl rfl)
    rw [if_neg (by decide)]
    try dsimp only
    rw [if_pos rfl]
    try dsimp only
    split_ifs with h3
    · cases hfind : orders.find? (fun o => agent.currentOrder == some o.id) with
      | none =>
        refine ⟨⟨hband, ⟨by simp, by simp⟩, ?_⟩, ho, rfl, rfl⟩
        unfold agentLegSat
        dsimp only
        simp
      | some order =>
        refine ⟨⟨hband, ⟨by simp [hl1], by simp [hl2]⟩, ?_⟩, ?_, rfl, rfl⟩
        · unfold agentLegSat
          dsimp only
          intro _
          exact hsat'
        · exact forall_mem_updateFirstBy ho (fun o hoo => orderInv_set_pickedUp (ho o hoo))
    · refine ⟨⟨hband, ⟨by simp [hl1], by simp [hl2]⟩, ?_⟩, ho, rfl, rfl⟩
      unfold agentLegSat
      dsimp only
      intro _
      exact hsat'
  | to_store =>
    rw [hst] at hl1 hl2
    simp only [show (AgentStatus.to_store = AgentStatus.available) = False by simp,
      false_iff] at hl1 hl2
    rw [if_neg (by decide)]
    try dsimp only
    rw [if_neg (by decide)]
    try dsimp only
    by_cases hguard : agent.routePath = [] ∨ agent.routePath.length - 1 ≤ agent.currentLegIndex
    · rw [if_pos hguard]
      refine ⟨⟨hband, ⟨by simp [hl1], by simp [hl2]⟩, ?_⟩, ho, rfl, rfl⟩
      unfold agentLegSat
      dsimp only
      simp
    · rw [if_neg hguard]
      try dsimp only
      by_cases hsp : speed * agent.fatigueFactor * traffic ≤ 1 / 100
      · rw [if_pos hsp]
        refine ⟨⟨hband, ⟨by simp [hl1], by simp [hl2]⟩, ?_⟩, ho, rfl, rfl⟩
        unfold agentLegSat
        dsimp only
        simp
      · rw [if_neg hsp]
        try dsimp only
        by_cases harr : agent.routePath.length - 1 ≤
          (moveLoop distM agent.routePath { lat := agent.lat, lng := agent.lng }
            agent.currentLegIndex agent.legProgress
            (speed * agent.fatigueFactor * traffic / 60 * (MINUTES_PER_SIMULATION_STEP : ℚ))).2.1
        · rw [if_pos harr]
          cases hfind : orders.find? (fun o => agent.currentOrder == some o.id) with
          | none =>
            try dsimp only
            rw [if_pos (by
              cases hco : agent.currentOrder with
              | none => exact absurd hco hl1
              | some oid => simp)]
            refine ⟨⟨hband, ⟨by simp, by simp⟩, ?_⟩, ho, rfl, rfl⟩
            unfold agentLegSat
            dsimp only
            simp
          | some order =>
            try dsimp only
            rw [if_pos rfl]
            cases hsc : agent.routePath.find? (fun p =>
                stores.any (fun dsl => dsl.lat == p.lat && dsl.lng == p.lng)) with
            | none =>
              refine ⟨⟨hband, ⟨by simp [hl1], by simp [hl2]⟩, ?_⟩, ?_, rfl, rfl⟩
              · unfold agentLegSat
                dsimp only
                intro _
                exact Or.inr harr
              · exact forall_mem_updateFirstBy ho
                  (fun o hoo => orderInv_set_storeArrival (ho o hoo))
            | some sc =>
              refine ⟨⟨hband, ⟨by simp [hl1], by simp [hl2]⟩, ?_⟩, ?_, rfl, rfl⟩
              · unfold agentLegSat
                dsimp only
                intro _
                exact Or.inr harr
              · exact forall_mem_updateFirstBy ho
                  (fun o hoo => orderInv_set_storeArrival (ho o hoo))
        · rw [if_neg harr]
          refine ⟨⟨hband, ⟨by simp [hl1], by simp [hl2]⟩, ?_⟩, ho, rfl, rfl⟩
          unfold agentLegSat
          dsimp only
          simp
  | to_customer =>
    rw [hst] at hl1 hl2 hsat
    simp only [show (AgentStatus.to_customer = AgentStatus.available) = False by simp,
      false_iff] at hl1 hl2
    have hsat' := hsat (Or.inr rfl)
    rw [if_neg (by decide)]
    try dsimp only
    rw [if_neg (by decide)]
    try dsimp only
    rw [if_pos hsat']
    refine ⟨⟨hband, ⟨by simp [hl1], by simp [hl2]⟩, ?_⟩, ho, rfl, rfl⟩
    unfold agentLegSat
    dsimp only
    intro _
    exact hsat'
  | busy =>
    rw [hst] at hl1 hl2
    simp only [show (AgentStatus.busy = AgentStatus.available) = False by simp,
      false_iff] at hl1 hl2
    rw [if_neg (by decide)]
    try dsimp only
    rw [if_neg (by decide)]
    try dsimp only
    by_cases hguard : agent.routePath = [] ∨ agent.routePath.length - 1 ≤ agent.currentLegIndex
    · rw [if_pos hguard]
      refine ⟨⟨hband, ⟨by simp [hl1], by simp [hl2]⟩, ?_⟩, ho, rfl, rfl⟩
      unfold agentLegSat
      dsimp only
      simp
    · rw [if_neg hguard]
      try dsimp only
      by_cases hsp : speed * agent.fatigueFactor * traffic ≤ 1 / 100
      · rw [if_pos hsp]
        refine ⟨⟨hband, ⟨by simp [hl1], by simp [hl2]⟩, ?_⟩, ho, rfl, rfl⟩
        unfold agentLegSat
        dsimp only
        simp
      · rw [if_neg hsp]
        try dsimp only
        by_cases harr : agent.routePath.length - 1 ≤
          (moveLoop distM agent.routePath { lat := agent.lat, lng := agent.lng }
            agent.currentLegIndex agent.legProgress
            (speed * agent.fatigueFactor * traffic / 60 * (MINUTES_PER_SIMULATION_STEP : ℚ))).2.1
        · rw [if_pos harr]
          cases hfind : orders.find? (fun o => agent.currentOrder == some o.id) with
          | none =>
            try dsimp only
            rw [if_pos (by
              cases hco : agent.currentOrder with
              | none => exact absurd hco hl1
              | some oid => simp)]
            refine ⟨⟨hband, ⟨by simp, by simp⟩, ?_⟩, ho, rfl, rfl⟩
            unfold agentLegSat
            dsimp only
            simp
          | some order =>
            try dsimp only
            rw [if_neg (by decide), if_neg (by decide)]
            refine ⟨⟨hband, ⟨by simp [hl1], by simp [hl2]⟩, ?_⟩, ho, rfl, rfl⟩
            unfold agentLegSat
            dsimp only
            simp
        · rw [if_neg harr]
          refine ⟨⟨hband, ⟨by simp [hl1], by simp [hl2]⟩, ?_⟩, ho, rfl, rfl⟩
          unfold agentLegSat
          dsimp only
          simp

/-- Invariant preservation for the movement fold, generalized over the
accumulator. -/
lemma movement_foldl_inv (distM : LatLngQ → LatLngQ → ℚ) (speed traffic : ℚ)
    (t : ℕ) (stores : List LatLngQ) :
    ∀ (agents : List Agent) (acc : MovementOutcome),
      (∀ a ∈ agents, agentInv a) →
      (∀ a ∈ acc.updatedAgents, agentInv a) →
      (∀ o ∈ acc.updatedOrders, orderInv t o) →
      acc.deliveredOrdersThisStep = [] →
      acc.totalDeliveryTimeIncrement = 0 →
      (∀ a ∈ (agents.foldl (fun acc agent =>
          let r := updateOneAgentMovement distM speed traffic t stores
            acc.updatedOrders agent
          { updatedAgents := acc.updatedAgents ++ [r.agent],
            updatedOrders := r.orders,
            deliveredOrdersThisStep := acc.deliveredOrdersThisStep ++ r.delivered,
            totalDeliveryTimeIncrement := acc.totalDeliveryTimeIncrement + r.deliveryTimeInc,
            heatmapPointsToAdd := acc.heatmapPointsToAdd ++ r.heatmap }) acc).updatedAgents,
        agentInv a) ∧
      (∀ o ∈ (agents.foldl (fun acc agent =>
          let r := updateOneAgentMovement distM speed traffic t stores
            acc.updatedOrders agent
          { updatedAgents := acc.updatedAgents ++ [r.agent],
            updatedOrders := r.orders,
            deliveredOrdersThisStep := acc.deliveredOrdersThisStep ++ r.delivered,
            totalDeliveryTimeIncrement := acc.totalDeliveryTimeIncrement + r.deliveryTimeInc,
            heatmapPointsToAdd := acc.heatmapPointsToAdd ++ r.heatmap }) acc).updatedOrders,
        orderInv t o) ∧
      (agents.foldl (fun acc agent =>
          let r := updateOneAgentMovement distM speed traffic t stores
            acc.updatedOrders agent
          { updatedAgents := acc.updatedAgents ++ [r.agent],
            updatedOrders := r.orders,
            deliveredOrdersThisStep := acc.deliveredOrdersThisStep ++ r.delivered,
            totalDeliveryTimeIncrement := acc.totalDeliveryTimeIncrement + r.deliveryTimeInc,
            heatmapPointsToAdd := acc.heatmapPointsToAdd ++ r.heatmap }) acc).deliveredOrdersThisStep
        = [] ∧
      (agents.foldl (fun acc agent =>
          let r := updateOneAgentMovement distM speed traffic t stores
            acc.updatedOrders agent
          { updatedAgents := acc.updatedAgents ++ [r.agent],
            updatedOrders := r.orders,
            deliveredOrdersThisStep := acc.deliveredOrdersThisStep ++ r.delivered,
            totalDeliveryTimeIncrement := acc.totalDeliveryTimeIncrement + r.deliveryTimeInc,
            heatmapPointsToAdd := acc.heatmapPointsToAdd ++ r.heatmap }) acc).totalDeliveryTimeIncrement
        = 0 := by
  intro agents
  induction agents with
  | nil =>
    intro acc h1 h2 h3 h4 h5
    exact ⟨h2, h3, h4, h5⟩
  | cons a as ih =>
    intro acc h1 h2 h3 h4 h5
    simp only [List.foldl_cons]
    obtain ⟨hra, hro, hrd, hri⟩ := updateOneAgentMovement_inv distM speed traffic t stores
      acc.updatedOrders a (h1 a (List.mem_cons_self a as)) h3
    refine ih _ (fun x hx => h1 x (List.mem_cons_of_mem a hx)) ?_ hro ?_ ?_
    · intro x hx
      dsimp only at hx
      rcases List.mem_append.mp hx with hx | hx
      · exact h2 x hx
      · rcases List.mem_singleton.mp hx with rfl
        exact hra
    · dsimp only
      rw [h4, hrd]
      rfl
    · dsimp only
      rw [h5, hri]
      rfl

/-- Invariant preservation for `updateAgentsMovementAndStatusLogic`, plus
the facts that no order is delivered and no delivery time accrues. -/
lemma updateAgentsMovementAndStatusLogic_inv (distM : LatLngQ → LatLngQ → ℚ)
    (speed traffic : ℚ) (t : ℕ) (stores : List LatLngQ)
    (agents : List Agent) (orders : List Order)
    (h1 : ∀ a ∈ agents, agentInv a) (h2 : ∀ o ∈ orders, orderInv t o) :
    (∀ a ∈ (updateAgentsMovementAndStatusLogic distM speed traffic t stores
        agents orders).updatedAgents, agentInv a) ∧
    (∀ o ∈ (updateAgentsMovementAndStatusLogic distM speed traffic t stores
        agents orders).updatedOrders, orderInv t o) ∧
    (updateAgentsMovementAndStatusLogic distM speed traffic t stores
        agents orders).deliveredOrdersThisStep = [] ∧
    (updateAgentsMovementAndStatusLogic distM speed traffic t stores
        agents orders).totalDeliveryTimeIncrement = 0 := by
  rw [updateAgentsMovementAndStatusLogic]
  exact movement_foldl_inv distM speed traffic t stores agents ⟨[], orders, [], 0, []⟩
    h1 (by simp) h2 rfl rfl

/-- The status/order/route linkage alone is preserved by one agent's
movement step, with no assumption on the rest of the state: every branch,
including delivery finalization, either leaves the three linked fields
unchanged or resets all three together. -/
lemma updateOneAgentMovement_link (distM : LatLngQ → LatLngQ → ℚ)
    (speed traffic : ℚ) (t : ℕ) (stores : List LatLngQ)
    (orders : List Order) (agent : Agent) (hl : agentLink agent) :
    agentLink (updateOneAgentMovement distM speed traffic t stores orders agent).agent := by
  obtain ⟨hl1, hl2⟩ := hl
  rw [updateOneAgentMovement]
  cases hst : agent.status with
  | available =>
    rw [hst] at hl1 hl2
    simp only [true_iff] at hl1 hl2
    rw [if_pos rfl]
    exact ⟨by dsimp only; simp [hl1], by dsimp only; simp [hl2]⟩
  | at_store =>
    rw [hst] at hl1 hl2
    simp only [show (AgentStatus.at_store = AgentStatus.available) = False by simp,
      false_iff] at hl1 hl2
    rw [if_neg (by decide)]
    try dsimp only
    rw [if_pos rfl]
    try dsimp only
    split_ifs with h3
    · cases hfind : orders.find? (fun o => agent.currentOrder == some o.id) with
      | none => exact ⟨by simp, by simp⟩
      | some order => exact ⟨by simp [hl1], by simp [hl2]⟩
    · exact ⟨by simp [hl1], by simp [hl2]⟩
  | to_store =>
    rw [hst] at hl1 hl2
    simp only [show (AgentStatus.to_store = AgentStatus.available) = False by simp,
      false_iff] at hl1 hl2
    rw [if_neg (by decide)]
    try dsimp only
    rw [if_neg (by decide)]
    try dsimp only
    by_cases hguard : agent.routePath = [] ∨ agent.routePath.length - 1 ≤ agent.currentLegIndex
    · rw [if_pos hguard]
      exact ⟨by simp [hl1], by simp [hl2]⟩
    · rw [if_neg hguard]
      try dsimp only
      by_cases hsp : speed * agent.fatigueFactor * traffic ≤ 1 / 100
      · rw [if_pos hsp]
        exact ⟨by simp [hl1], by simp [hl2]⟩
      · rw [if_neg hsp]
        try dsimp only
        by_cases harr : agent.routePath.length - 1 ≤
          (moveLoop distM agent.routePath { lat := agent.lat, lng := agent.lng }
            agent.currentLegIndex agent.legProgress
            (speed * agent.fatigueFactor * traffic / 60 * (MINUTES_PER_SIMULATION_STEP : ℚ))).2.1
        · rw [if_pos harr]
          cases hfind : orders.find? (fun o => agent.currentOrder == some o.id) with
          | none =>
            try dsimp only
            rw [if_pos (by
              cases hco : agent.currentOrder with
              | none => exact absurd hco hl1
              | some oid => simp)]
            exact ⟨by simp, by simp⟩
          | some order =>
            try dsimp only
            rw [if_pos rfl]
            cases hsc : agent.routePath.find? (fun p =>
                stores.any (fun dsl => dsl.lat == p.lat && dsl.lng == p.lng)) with
            | none => exact ⟨by simp [hl1], by simp [hl2]⟩
            | some sc => exact ⟨by simp [hl1], by simp [hl2]⟩
        · rw [if_neg harr]
          exact ⟨by simp [hl1], by simp [hl2]⟩
  | to_customer =>
    rw [hst] at hl1 hl2
    simp only [show (AgentStatus.to_customer = AgentStatus.available) = False by simp,
      false_iff] at hl1 hl2
    rw [if_neg (by decide)]
    try dsimp only
    rw [if_neg (by decide)]
    try dsimp only
    by_cases hguard : agent.routePath = [] ∨ agent.routePath.length - 1 ≤ agent.currentLegIndex
    · rw [if_pos hguard]
      exact ⟨by simp [hl1], by simp [hl2]⟩
    · rw [if_neg hguard]
      try dsimp only
      by_cases hsp : speed * agent.fatigueFactor * traffic ≤ 1 / 100
      · rw [if_pos hsp]
        exact ⟨by simp [hl1], by simp [hl2]⟩
      · rw [if_neg hsp]
        try dsimp only
        by_cases harr : agent.routePath.length - 1 ≤
          (moveLoop distM agent.routePath { lat := agent.lat, lng := agent.lng }
            agent.currentLegIndex agent.legProgress
            (speed * agent.fatigueFactor * traffic / 60 * (MINUTES_PER_SIMULATION_STEP : ℚ))).2.1
        · rw [if_pos harr]
          cases hfind : orders.find? (fun o => agent.currentOrder == some o.id) with
          | none =>
            try dsimp only
            rw [if_pos (by
              cases hco : agent.currentOrder with
              | none => exact absurd hco hl1
              | some oid => simp)]
            exact ⟨by simp, by simp⟩
          | some order =>
            try dsimp only
            rw [if_neg (by decide)]
            rw [if_pos rfl]
            exact ⟨by simp, by simp⟩
        · rw [if_neg harr]
          exact ⟨by simp [hl1], by simp [hl2]⟩
  | busy =>
    rw [hst] at hl1 hl2
    simp only [show (AgentStatus.busy = AgentStatus.available) = False by simp,
      false_iff] at hl1 hl2
    rw [if_neg (by decide)]
    try dsimp only
    rw [if_neg (by decide)]
    try dsimp only
    by_cases hguard : agent.routePath = [] ∨ agent.routePath.length - 1 ≤ agent.currentLegIndex
    · rw [if_pos hguard]
      exact ⟨by simp [hl1], by simp [hl2]⟩
    · rw [if_neg hguard]
      try dsimp only
      by_cases hsp : speed * agent.fatigueFactor * traffic ≤ 1 / 100
      · rw [if_pos hsp]
        exact ⟨by simp [hl1], by simp [hl2]⟩
      · rw [if_neg hsp]
        try dsimp only
        by_cases harr : agent.routePath.length - 1 ≤
          (moveLoop distM agent.routePath { lat := agent.lat, lng := agent.lng }
            agent.currentLegIndex agent.legProgress
            (speed * agent.fatigueFactor * traffic / 60 * (MINUTES_PER_SIMULATION_STEP : ℚ))).2.1
        · rw [if_pos harr]
          cases hfind : orders.find? (fun o => agent.currentOrder == some o.id) with
          | none =>
            try dsimp only
            rw [if_pos (by
              cases hco : agent.currentOrder with
              | none => exact absurd hco hl1
              | some oid => simp)]
            exact ⟨by simp, by simp⟩
          | some order =>
            try dsimp only
            rw [if_neg (by decide), if_neg (by decide)]
            exact ⟨by simp [hl1], by simp [hl2]⟩
        · rw [if_neg harr]
          exact ⟨by simp [hl1], by simp [hl2]⟩

/-- Linkage preservation across the whole movement engine. -/
lemma movement_foldl_link (distM : LatLngQ → LatLngQ → ℚ) (speed traffic : ℚ)
    (t : ℕ) (stores : List LatLngQ) :
    ∀ (agents : List Agent) (acc : MovementOutcome),
      (∀ a ∈ agents, agentLink a) →
      (∀ a ∈ acc.updatedAgents, agentLink a) →
      (∀ a ∈ (agents.foldl (fun acc agent =>
          let r := updateOneAgentMovement distM speed traffic t stores
            acc.updatedOrders agent
          { updatedAgents := acc.updatedAgents ++ [r.agent],
            updatedOrders := r.orders,
            deliveredOrdersThisStep := acc.deliveredOrdersThisStep ++ r.delivered,
            totalDeliveryTimeIncrement := acc.totalDeliveryTimeIncrement + r.deliveryTimeInc,
            heatmapPointsToAdd := acc.heatmapPointsToAdd ++ r.heatmap }) acc).updatedAgents,
        agentLink a) := by
  intro agents
  induction agents with
  | nil =>
    intro acc h1 h2
    exact h2
  | cons a as ih =>
    intro acc h1 h2
    simp only [List.foldl_cons]
    refine ih _ (fun x hx => h1 x (List.mem_cons_of_mem a hx)) ?_
    intro x hx
    dsimp only at hx
    rcases List.mem_append.mp hx with hx | hx
    · exact h2 x hx
    · rcases List.mem_singleton.mp hx with rfl
      exact updateOneAgentMovement_link distM speed traffic t stores acc.updatedOrders a
        (h1 a (List.mem_cons_self a as))

/-- The movement engine preserves the agent-state linkage alone. -/
lemma updateAgentsMovementAndStatusLogic_link (distM : LatLngQ → LatLngQ → ℚ)
    (speed traffic : ℚ) (t : ℕ) (stores : List LatLngQ)
    (agents : List Agent) (orders : List Order)
    (h1 : ∀ a ∈ agents, agentLink a) :
    ∀ a ∈ (updateAgentsMovementAndStatusLogic distM speed traffic t stores
        agents orders).updatedAgents, agentLink a := by
  rw [updateAgentsMovementAndStatusLogic]
  exact movement_foldl_link distM speed traffic t stores agents ⟨[], orders, [], 0, []⟩
    h1 (by simp)

/-- The route an assignment installs is never empty. -/
lemma assignRoute_ne_nil (a b c : LatLngQ) :
    generateWaypoints a b 2 ++ (generateWaypoints b c 2).drop 1 ≠ [] := by
  simp [generateWaypoints]

/-- The agent record an assignment installs satisfies the full agent
invariant. -/
lemma agentInv_assigned {a : Agent} (h : agentInv a) (oid : ℕ)
    {route : List LatLngQ} (hroute : route ≠ []) :
    agentInv { a with
      status := AgentStatus.to_store,
      currentOrder := some oid,
      routePath := route,
      currentLegIndex := 0,
      legProgress := 0 } := by
  obtain ⟨hband, _, _⟩ := h
  refine ⟨hband, ⟨by simp, by simp [hroute]⟩, ?_⟩
  unfold agentLegSat
  dsimp only
  simp

/-- One assignment iteration preserves the agent and order invariants. -/
lemma assignOneOrder_inv (distK : LatLngQ → LatLngQ → ℚ) (speed traffic : ℚ)
    (stores : List LatLngQ) (t : ℕ) (st : AssignState) (order : Order)
    (h1 : ∀ a ∈ st.agents, agentInv a) (h2 : ∀ o ∈ st.orders, orderInv t o) :
    (∀ a ∈ (assignOneOrder distK speed traffic stores st order).agents, agentInv a) ∧
    (∀ o ∈ (assignOneOrder distK speed traffic stores st order).orders, orderInv t o) := by
  rw [assignOneOrder]
  cases hsel : selectBestAgent distK speed traffic st.agents st.avail
      (selectClosestStore distK stores order) order with
  | none => exact ⟨h1, h2⟩
  | some bestAgent =>
    try dsimp only
    split_ifs with hidx
    · constructor
      · exact forall_mem_updateFirstBy h1
          (fun a ha => agentInv_assigned (h1 a ha) order.id
            (assignRoute_ne_nil _ _ _))
      · exact forall_mem_updateFirstBy h2
          (fun o hoo => orderInv_set_assigned (h2 o hoo))
    · exact ⟨h1, h2⟩

/-- The assigner preserves the agent and order invariants. -/
lemma assignOrdersToAgentsLogic_inv (distK : LatLngQ → LatLngQ → ℚ)
    (speed traffic : ℚ) (stores : List LatLngQ) (t : ℕ)
    (agents : List Agent) (orders : List Order)
    (h1 : ∀ a ∈ agents, agentInv a) (h2 : ∀ o ∈ orders, orderInv t o) :
    (∀ a ∈ (assignOrdersToAgentsLogic distK speed traffic stores agents orders).1,
      agentInv a) ∧
    (∀ o ∈ (assignOrdersToAgentsLogic distK speed traffic stores agents orders).2,
      orderInv t o) := by
  rw [assignOrdersToAgentsLogic]
  try dsimp only
  split_ifs with hempty
  · exact ⟨h1, h2⟩
  · have main : ∀ (pend : List Order) (st : AssignState),
        (∀ a ∈ st.agents, agentInv a) → (∀ o ∈ st.orders, orderInv t o) →
        (∀ a ∈ (pend.foldl (assignOneOrder distK speed traffic stores) st).agents,
          agentInv a) ∧
        (∀ o ∈ (pend.foldl (assignOneOrder distK speed traffic stores) st).orders,
          orderInv t o) := by
      intro pend
      induction pend with
      | nil => intro st hA hO; exact ⟨hA, hO⟩
      | cons p ps ih =>
        intro st hA hO
        simp only [List.foldl_cons]
        obtain ⟨hA', hO'⟩ := assignOneOrder_inv distK speed traffic stores t st p hA hO
        exact ih _ hA' hO'
    exact main _ _ h1 h2

/-- Every order the generator spawns satisfies the order invariant at the
spawn time. -/
lemma orderInv_mkNewOrder (oid : ℕ) (c : LatLngQ) (t : ℕ) :
    orderInv t (mkNewOrder oid c t) := by
  refine ⟨by simp [mkNewOrder], le_refl t, ?_, rfl, rfl⟩
  intro ts hts
  simp [mkNewOrder] at hts

lemma zoneSpawn_orderInv (env : GenEnv) (stores : List LatLngQ) (primary : LatLngQ)
    (t counter i : ℕ) (zone : DemandZone) :
    ∀ o ∈ (zoneSpawn env stores primary t counter i zone).1, orderInv t o := by
  intro o ho
  rw [zoneSpawn] at ho
  by_cases hw : zone.startTime * 60 ≤ t ∧ t ≤ zone.endTime * 60
  · rw [if_pos hw] at ho
    dsimp only at ho
    by_cases hb : env.zoneBernRand i <
        (zone.minOrders + env.zoneRateRand i * (zone.maxOrders - zone.minOrders)) *
          ((MINUTES_PER_SIMULATION_STEP : ℚ) / 60)
    · rw [if_pos hb] at ho
      try dsimp only at ho
      rw [List.mem_singleton] at ho
      exact ho ▸ orderInv_mkNewOrder _ _ t
    · rw [if_neg hb] at ho
      simp at ho
  · rw [if_neg hw] at ho
    simp at ho

lemma genZones_foldl_orderInv (env : GenEnv) (stores : List LatLngQ)
    (primary : LatLngQ) (t : ℕ) :
    ∀ (zs : List (ℕ × DemandZone)) (acc : List Order × ℕ × ℕ),
      (∀ o ∈ acc.1, orderInv t o) →
      ∀ o ∈ (zs.foldl (fun acc iz =>
        let r := zoneSpawn env stores primary t acc.2.1 iz.1 iz.2
        (acc.1 ++ r.1, r.2.1, acc.2.2 + r.2.2)) acc).1, orderInv t o := by
  intro zs
  induction zs with
  | nil => intro acc hacc o ho; exact hacc o ho
  | cons z zsr ih =>
    intro acc hacc
    simp only [List.foldl_cons]
    refine ih _ ?_
    intro x hx
    dsimp only at hx
    rcases List.mem_append.mp hx with hx | hx
    · exact hacc x hx
    · exact zoneSpawn_orderInv env stores primary t _ _ _ x hx

lemma generateOrdersLogic_orderInv (env : GenEnv) (c : ℕ) (pid : String) (t : ℕ)
    (profs : List CustomDemandProfile) (stores : List LatLngQ) :
    ∀ o ∈ (generateOrdersLogic env c pid t profs stores).1, orderInv t o := by
  intro o ho
  rw [generateOrdersLogic] at ho
  try dsimp only at ho
  by_cases hdef : pid = "default_uniform_ccr" ∨ pid = "default_focused_ccr"
  · rw [if_pos hdef] at ho
    by_cases hbern : env.baseRand < baseOrderRate
    · rw [if_pos hbern] at ho
      try dsimp only at ho
      rw [List.mem_singleton] at ho
      exact ho ▸ orderInv_mkNewOrder _ _ t
    · rw [if_neg hbern] at ho
      simp at ho
  · rw [if_neg hdef] at ho
    revert ho
    cases hfind : profs.find? (fun p => p.id == pid) with
    | none => intro ho; simp at ho
    | some profile =>
      intro ho
      try dsimp only at ho
      exact genZones_foldl_orderInv env stores _ t profile.zones.enum ([], c, 0)
        (by simp) o ho

/-- A fatigue pass preserves the per-agent invariant across the list. -/
lemma updateAgentFatigueLogic_inv {agents : List Agent}
    (h : ∀ a ∈ agents, agentInv a) :
    ∀ a ∈ updateAgentFatigueLogic agents, agentInv a := by
  intro a ha
  rw [updateAgentFatigueLogic] at ha
  obtain ⟨b, hb, rfl⟩ := List.mem_map.mp ha
  exact fatigue_agentInv (h b hb)

/-- One orchestrator tick preserves the simulation-state invariant. -/
lemma runSimulationStep_inv (env : StepEnv) (params : SimParams)
    (profs : List CustomDemandProfile) (s : SimState) (h : Inv s) :
    Inv (runSimulationStep env params profs s) := by
  obtain ⟨hA, hO, hD⟩ := h
  rw [runSimulationStep]
  cases hrun : s.isRunning with
  | false =>
    rw [if_pos (by simp [hrun])]
    exact ⟨hA, hO, hD⟩
  | true =>
    rw [if_neg (by simp [hrun])]
    try dsimp only
    have horders1 : ∀ o ∈ s.orders ++ (generateOrdersLogic env.gen s.orderIdCounter
        params.orderGenProfileId (s.currentSimulationTime + MINUTES_PER_SIMULATION_STEP)
        profs s.darkStoreLocations).1,
        orderInv (s.currentSimulationTime + MINUTES_PER_SIMULATION_STEP) o := by
      intro o ho
      rcases List.mem_append.mp ho with ho | ho
      · exact orderInv_mono (Nat.le_add_right _ _) (hO o ho)
      · exact generateOrdersLogic_orderInv _ _ _ _ _ _ o ho
    refine ⟨?_, ?_, ?_⟩
    · intro a ha
      try dsimp only at ha
      rw [updateAgentFatigueLogic] at ha
      obtain ⟨b, hb, rfl⟩ := List.mem_map.mp ha
      refine fatigue_agentInv ?_
      refine (updateAgentsMovementAndStatusLogic_inv _ _ _ _ _ _ _ ?_ ?_).1 b hb
      · exact (assignOrdersToAgentsLogic_inv _ _ _ _ _ _ _ hA horders1).1
      · exact (assignOrdersToAgentsLogic_inv _ _ _ _ _ _ _ hA horders1).2
    · intro o ho
      try dsimp only at ho
      refine (updateAgentsMovementAndStatusLogic_inv _ _ _ _ _ _ _ ?_ ?_).2.1 o ho
      · exact (assignOrdersToAgentsLogic_inv _ _ _ _ _ _ _ hA horders1).1
      · exact (assignOrdersToAgentsLogic_inv _ _ _ _ _ _ _ hA horders1).2
    · try dsimp only
      rw [hD, Nat.zero_add, List.length_eq_zero]
      refine (updateAgentsMovementAndStatusLogic_inv _ _ _ _ _ _ _ ?_ ?_).2.2.1
      · exact (assignOrdersToAgentsLogic_inv _ _ _ _ _ _ _ hA horders1).1
      · exact (assignOrdersToAgentsLogic_inv _ _ _ _ _ _ _ hA horders1).2

/-- The per-agent invariant at initialization. -/
lemma initialAgent_inv (jitter : ℕ → ℚ × ℚ) (i : ℕ) :
    agentInv (initialAgent jitter i) := by
  refine ⟨⟨by norm_num [initialAgent], by norm_num [initialAgent]⟩,
    ⟨by simp [initialAgent], by simp [initialAgent]⟩, ?_⟩
  unfold agentLegSat initialAgent
  simp

/-- The simulation-state invariant at initialization. -/
lemma initialSimState_inv (jitter : ℕ → ℚ × ℚ) (params : SimParams)
    (stores : List LatLngQ) : Inv (initialSimState jitter params stores) := by
  refine ⟨?_, ?_, rfl⟩
  · intro a ha
    rw [initialSimState] at ha
    try dsimp only at ha
    obtain ⟨i, _, rfl⟩ := List.mem_map.mp ha
    exact initialAgent_inv jitter i
  · intro o ho
    rw [initialSimState] at ho
    simp at ho

/-- Every reachable simulation state satisfies the invariant. -/
lemma reachable_inv {params : SimParams} {profs : List CustomDemandProfile}
    {s : SimState} (h : Reachable params profs s) : Inv s := by
  induction h with
  | init jitter stores => exact initialSimState_inv jitter params stores
  | setRunning b h ih =>
    obtain ⟨hA, hO, hD⟩ := ih
    exact ⟨hA, hO, hD⟩
  | step env h ih => exact runSimulationStep_inv env params profs _ ih

/-- The best-agent scan is the running-minimum fold over the agents passing
the eligibility checks. -/
lemma selectBestAgent_eq_runningMinFold (distK : LatLngQ → LatLngQ → ℚ)
    (agentSpeedKmph trafficFactor : ℚ) (modifiableAgents : List Agent)
    (storeCoords : LatLngQ) (order : Order) :
    ∀ (avail : List Agent) (acc : Option (Agent × ℚ)),
    (avail.foldl (fun acc agent =>
      match modifiableAgents.find? (fun a => a.id == agent.id) with
      | none => acc
      | some agentInModifiableList =>
        if agentInModifiableList.status ≠ AgentStatus.available then acc
        else
          let effectiveSpeed := agentSpeedKmph * agent.fatigueFactor * trafficFactor
          if effectiveSpeed ≤ 1 / 10 then acc
          else
            let eta := agentEta distK agentSpeedKmph trafficFactor storeCoords order agent
            match acc with
            | none => some (agent, eta)
            | some (b, minEta) =>
              if eta < minEta then some (agent, eta) else some (b, minEta)) acc) =
    runningMinFold (agentEta distK agentSpeedKmph trafficFactor storeCoords order) acc
      (avail.filter (agentEligibleB modifiableAgents agentSpeedKmph trafficFactor)) := by
  intro avail
  induction avail with
  | nil => intro acc; rfl
  | cons a rest ih =>
    intro acc
    rw [List.foldl_cons, List.filter_cons]
    by_cases helig : agentEligibleB modifiableAgents agentSpeedKmph trafficFactor a
    · rw [if_pos helig]
      unfold agentEligibleB at helig
      rw [Bool.and_eq_true] at helig
      obtain ⟨h1, h2⟩ := helig
      rw [decide_eq_true_eq] at h2
      revert h1
      cases hfind : modifiableAgents.find? (fun x => x.id == a.id) with
      | none => intro h1; cases h1
      | some a' =>
        intro h1
        rw [beq_iff_eq] at h1
        rw [runningMinFold, List.foldl_cons, ← runningMinFold]
        dsimp only
        rw [if_neg (by simp [h1]), if_neg (by exact not_le.mpr h2)]
        exact ih _
    · rw [if_neg helig]
      unfold agentEligibleB at helig
      revert helig
      cases hfind : modifiableAgents.find? (fun x => x.id == a.id) with
      | none => intro _; exact ih acc
      | some a' =>
        intro helig
        rw [Bool.and_eq_true, not_and_or] at helig
        dsimp only
        rcases helig with h1 | h2
        · rw [if_pos (by
            intro hc
            exact h1 (by rw [beq_iff_eq]; exact hc))]
          exact ih acc
        · by_cases hst : a'.status = AgentStatus.available
          · rw [if_neg (by simp [hst])]
            rw [if_pos (by
              rw [decide_eq_true_eq] at h2
              exact not_lt.mp h2)]
            exact ih acc
          · rw [if_pos (by simp [hst])]
            exact ih acc

/-- First-winner characterization of the running-minimum fold, relative to
a current champion. -/
lemma runningMinFold_champion (eta : Agent → ℚ) :
    ∀ (l : List Agent) (b0 : Agent),
      ∃ b, runningMinFold eta (some (b0, eta b0)) l = some (b, eta b) ∧
        ((b = b0 ∧ ∀ x ∈ l, eta b0 ≤ eta x) ∨
         (∃ pre post, l = pre ++ b :: post ∧ eta b < eta b0 ∧
           (∀ x ∈ pre, eta b < eta x) ∧ (∀ x ∈ post, eta b ≤ eta x))) := by
  intro l
  induction l with
  | nil =>
    intro b0
    exact ⟨b0, rfl, Or.inl ⟨rfl, by simp⟩⟩
  | cons a rest ih =>
    intro b0
    rw [runningMinFold, List.foldl_cons, ← runningMinFold]
    dsimp only
    by_cases hlt : eta a < eta b0
    · rw [if_pos hlt]
      obtain ⟨b, hb, hcase⟩ := ih a
      refine ⟨b, hb, Or.inr ?_⟩
      rcases hcase with ⟨rfl, hall⟩ | ⟨pre, post, hdec, hblt, hpre, hpost⟩
      · exact ⟨[], rest, rfl, hlt, by simp, hall⟩
      · refine ⟨a :: pre, post, by rw [hdec, List.cons_append], hblt.trans hlt, ?_, hpost⟩
        intro x hx
        rcases List.mem_cons.mp hx with rfl | hx
        · exact hblt
        · exact hpre x hx
    · rw [if_neg hlt]
      obtain ⟨b, hb, hcase⟩ := ih b0
      refine ⟨b, hb, ?_⟩
      rcases hcase with ⟨rfl, hall⟩ | ⟨pre, post, hdec, hblt, hpre, hpost⟩
      · refine Or.inl ⟨rfl, ?_⟩
        intro x hx
        rcases List.mem_cons.mp hx with rfl | hx
        · exact not_lt.mp hlt
        · exact hall x hx
      · refine Or.inr ⟨a :: pre, post, by rw [hdec, List.cons_append], hblt, ?_, hpost⟩
        intro x hx
        rcases List.mem_cons.mp hx with rfl | hx
        · exact lt_of_lt_of_le hblt (not_lt.mp hlt)
        · exact hpre x hx

/-- First-winner characterization of the whole best-agent scan: the chosen
agent is the first eligible agent attaining the minimum ETA, and no agent
is chosen exactly when no eligible agent exists. -/
lemma selectBestAgent_spec (distK : LatLngQ → LatLngQ → ℚ)
    (agentSpeedKmph trafficFactor : ℚ) (modifiableAgents avail : List Agent)
    (storeCoords : LatLngQ) (order : Order) :
    (selectBestAgent distK agentSpeedKmph trafficFactor modifiableAgents avail
        storeCoords order = none ↔
      avail.filter (agentEligibleB modifiableAgents agentSpeedKmph trafficFactor) = []) ∧
    (∀ b, selectBestAgent distK agentSpeedKmph trafficFactor modifiableAgents avail
        storeCoords order = some b →
      ∃ pre post,
        avail.filter (agentEligibleB modifiableAgents agentSpeedKmph trafficFactor) =
          pre ++ b :: post ∧
        (∀ x ∈ pre, agentEta distK agentSpeedKmph trafficFactor storeCoords order b <
          agentEta distK agentSpeedKmph trafficFactor storeCoords order x) ∧
        (∀ x ∈ post, agentEta distK agentSpeedKmph trafficFactor storeCoords order b ≤
          agentEta distK agentSpeedKmph trafficFactor storeCoords order x)) := by
  have hre := selectBestAgent_eq_runningMinFold distK agentSpeedKmph trafficFactor
    modifiableAgents storeCoords order avail none
  rw [selectBestAgent, hre]
  cases hf : avail.filter (agentEligibleB modifiableAgents agentSpeedKmph trafficFactor) with
  | nil => exact ⟨⟨fun _ => rfl, fun _ => rfl⟩, fun b hb => nomatch hb⟩
  | cons c cs =>
    rw [runningMinFold, List.foldl_cons, ← runningMinFold]
    dsimp only
    obtain ⟨b, hb, hcase⟩ := runningMinFold_champion
      (agentEta distK agentSpeedKmph trafficFactor storeCoords order) cs c
    rw [hb]
    constructor
    · exact ⟨(fun h => nomatch h), (fun h => nomatch h)⟩
    · intro bq hbq
      have hbe : b = bq := by
        simp only [Option.map_some'] at hbq
        exact Option.some.inj hbq
      subst hbe
      rcases hcase with ⟨rfl, hall⟩ | ⟨pre, post, hdec, hblt, hpre, hpost⟩
      · exact ⟨[], cs, rfl, by simp, hall⟩
      · refine ⟨c :: pre, post, by simp [hdec], ?_, hpost⟩
        intro x hx
        rcases List.mem_cons.mp hx with rfl | hx
        · exact hblt
        · exact hpre x hx

/-- Argmin characterization of the closest-store scan. -/
lemma selectClosestStore_spec (distK : LatLngQ → LatLngQ → ℚ)
    (stores : List LatLngQ) (order : Order) (hne : stores ≠ []) :
    selectClosestStore distK stores order ∈ stores ∧
    ∀ ds ∈ stores,
      distK (selectClosestStore distK stores order) ⟨order.lat, order.lng⟩ ≤
        distK ds ⟨order.lat, order.lng⟩ := by
  have main : ∀ (l : List LatLngQ) (b : LatLngQ),
      ∃ b', (l.foldl (closestStoreStep distK order)
          (some (b, distK b ⟨order.lat, order.lng⟩))) =
        some (b', distK b' ⟨order.lat, order.lng⟩) ∧
      (b' = b ∨ b' ∈ l) ∧
      distK b' ⟨order.lat, order.lng⟩ ≤ distK b ⟨order.lat, order.lng⟩ ∧
      ∀ x ∈ l, distK b' ⟨order.lat, order.lng⟩ ≤ distK x ⟨order.lat, order.lng⟩ := by
    intro l
    induction l with
    | nil => intro b; exact ⟨b, rfl, Or.inl rfl, le_refl _, by simp⟩
    | cons d ds ih =>
      intro b
      rw [List.foldl_cons]
      rw [show closestStoreStep distK order
          (some (b, distK b ⟨order.lat, order.lng⟩)) d =
          (if distK d ⟨order.lat, order.lng⟩ < distK b ⟨order.lat, order.lng⟩ then
            some (d, distK d ⟨order.lat, order.lng⟩)
          else some (b, distK b ⟨order.lat, order.lng⟩)) from rfl]
      by_cases hlt : distK d ⟨order.lat, order.lng⟩ < distK b ⟨order.lat, order.lng⟩
      · rw [if_pos hlt]
        obtain ⟨b', hfold, hmem, hle, hall⟩ := ih d
        refine ⟨b', hfold, ?_, hle.trans (le_of_lt hlt), ?_⟩
        · rcases hmem with rfl | h
          · exact Or.inr (List.mem_cons_self _ _)
          · exact Or.inr (List.mem_cons_of_mem _ h)
        · intro x hx
          rcases List.mem_cons.mp hx with rfl | hx
          · exact hle
          · exact hall x hx
      · rw [if_neg hlt]
        obtain ⟨b', hfold, hmem, hle, hall⟩ := ih b
        refine ⟨b', hfold, ?_, hle, ?_⟩
        · rcases hmem with rfl | h
          · exact Or.inl rfl
          · exact Or.inr (List.mem_cons_of_mem _ h)
        · intro x hx
          rcases List.mem_cons.mp hx with rfl | hx
          · exact hle.trans (not_lt.mp hlt)
          · exact hall x hx
  cases hs : stores with
  | nil => exact absurd hs hne
  | cons s ss =>
    subst hs
    rw [selectClosestStore]
    try dsimp only
    rw [List.foldl_cons]
    rw [show closestStoreStep distK order none s =
        some (s, distK s ⟨order.lat, order.lng⟩) from rfl]
    obtain ⟨b', hfold, hmem, hle, hall⟩ := main ss s
    rw [hfold]
    dsimp only
    constructor
    · rcases hmem with rfl | h
      · exact List.mem_cons_self _ _
      · exact List.mem_cons_of_mem _ h
    · intro ds hds
      rcases List.mem_cons.mp hds with rfl | hds
      · exact hle
      · exact hall ds hds

/-! ### Concrete evaluation of the first tick -/

/-- The initial state of the concrete scenario, in literal form. -/
lemma exState0_eq : exState0 = exStateLit0 := by
  norm_num [exState0, initialSimState, initialAgent, exJitter, exParams,
    defaultDarkStoreLocationSim, exAgentLit0, exStateLit0, exStorePt, List.range_succ]

set_option maxHeartbeats 2000000 in
/-- The full first tick of the concrete scenario, evaluated: one order is
generated at `t = 5`, assigned to the single agent, and the agent walks all
seven degenerate legs within the tick, arriving `at_store` with the leg
index already at the final leg and the route still installed. -/
lemma exState1_eq : exState1 = exStateLit1 := by
  rw [exState1, exState0_eq]
  repeat
    first
      | rfl
      | (norm_num [runSimulationStep, exEnv, exGenEnv, exParams, exStateLit0, exAgentLit0,
          exStateLit1, exAgentArrived, exOrderArrived, exRouteLit, exStorePt,
          generateOrdersLogic, mkNewOrder, baseOrderRate, defaultDarkStoreLocationSim,
          assignOrdersToAgentsLogic, assignOneOrder, selectClosestStore, closestStoreStep,
          selectBestAgent,
          agentEta, generateWaypoints, updateFirstBy, removeFirstBy,
          updateAgentsMovementAndStatusLogic, updateOneAgentMovement, moveLoop, moveLoopGo,
          HANDLING_TIME_AT_STORE, MINUTES_PER_SIMULATION_STEP,
          DYNAMIC_TRAFFIC_UPDATE_INTERVAL_STEPS,
          updateAgentFatigueLogic, updateOneAgentFatigue,
          FATIGUE_RECOVERY_IDLE_TIME_MIN, FATIGUE_THRESHOLD_DELIVERIES,
          FATIGUE_THRESHOLD_TIME_MIN, List.range_succ, List.find?, List.filter])
      | (simp [exStateLit0, exAgentLit0, exStateLit1, exAgentArrived, exOrderArrived,
          exRouteLit, exStorePt])

/-- The state after the first tick is reachable. -/
lemma exStateLit1_reachable : Reachable exParams [] exStateLit1 := by
  rw [← exState1_eq, exState1]
  exact Reachable.step exEnv
    (show Reachable exParams [] { exState0 with isRunning := true } from
      Reachable.setRunning true (Reachable.init exJitter []))

/-! ### Fatigue preserves the status/order/route linkage -/

/-- The fatigue update never touches status, held order or route. -/
lemma fatigue_link {a : Agent} (h : agentLink a) :
    agentLink (updateOneAgentFatigue a) := by
  obtain ⟨h1, h2⟩ := h
  unfold updateOneAgentFatigue
  dsimp only
  split_ifs <;> exact ⟨h1, h2⟩

/-- The fatigue model preserves the linkage across the whole agent list. -/
lemma updateAgentFatigueLogic_link {agents : List Agent}
    (h : ∀ a ∈ agents, agentLink a) :
    ∀ a ∈ updateAgentFatigueLogic agents, agentLink a := by
  intro a ha
  rw [updateAgentFatigueLogic] at ha
  obtain ⟨b, hb, rfl⟩ := List.mem_map.mp ha
  exact fatigue_link (h b hb)

/-! ### The region sampler under the all-zeroes stream -/

lemma ccrBoundsSouth_eq : ccrBoundsSouth = 306 / 10 := by
  norm_num [ccrBoundsSouth, ccrPolygonRing]

lemma ccrBoundsNorth_eq : ccrBoundsNorth = 3085 / 100 := by
  norm_num [ccrBoundsNorth, ccrPolygonRing]

lemma ccrBoundsWest_eq : ccrBoundsWest = 7665 / 100 := by
  norm_num [ccrBoundsWest, ccrPolygonRing]

lemma ccrBoundsEast_eq : ccrBoundsEast = 769 / 10 := by
  norm_num [ccrBoundsEast, ccrPolygonRing]

/-- The south-west bounding-box corner — the point every zero draw samples —
fails the ray-casting test: the test compares the point's latitude against
the vertices' longitudes, which all exceed it. -/
lemma zeroSample_not_in_polygon :
    isPointInPolygon (306 / 10, 7665 / 100) ccrPolygonRing = false := by
  norm_num [isPointInPolygon, ccrPolygonRing, List.zip, List.zipWith, List.dropLast]

/-- Under the all-zeroes stream every iteration of the sampling loop draws
the same rejected corner, so the loop runs through the whole attempt budget
and returns the default point with the attempt counter one past the cap. -/
lemma go_randZero : ∀ fuel attempts, attempts + fuel = MAX_ATTEMPTS + 1 →
    getRandomPointInCcrGo randZero fuel attempts =
      ((defaultDarkStoreLocationSim.lat, defaultDarkStoreLocationSim.lng),
        MAX_ATTEMPTS + 1) := by
  intro fuel
  induction fuel with
  | zero =>
    intro attempts h
    rw [getRandomPointInCcrGo]
    simp only [Nat.add_zero] at h
    rw [h]
  | succ k ih =>
    intro attempts h
    rw [getRandomPointInCcrGo]
    have hpt : ((randZero (2 * attempts) * (ccrBoundsNorth - ccrBoundsSouth) + ccrBoundsSouth,
        randZero (2 * attempts + 1) * (ccrBoundsEast - ccrBoundsWest) + ccrBoundsWest) : ℚ × ℚ)
        = (306 / 10, 7665 / 100) := by
      norm_num [randZero, ccrBoundsSouth_eq, ccrBoundsNorth_eq, ccrBoundsWest_eq,
        ccrBoundsEast_eq]
    rw [hpt]
    by_cases hc : MAX_ATTEMPTS < attempts + 1
    · rw [if_pos hc]
      have : attempts + 1 = MAX_ATTEMPTS + 1 := by
        unfold MAX_ATTEMPTS at hc h ⊢
        omega
      rw [this]
    · rw [if_neg hc, zeroSample_not_in_polygon]
      simp only [Bool.false_eq_true, if_false]
      exact ih (attempts + 1) (by omega)

/-- The sampler draws exactly `201` bounding-box samples from the all-zeroes
stream. -/
lemma samples_randZero : getRandomPointInCcrSamples randZero = MAX_ATTEMPTS + 1 := by
  rw [getRandomPointInCcrSamples, getRandomPointInCcrLoop,
    go_randZero (MAX_ATTEMPTS + 1 - 0) 0 (by omega)]

/-- And falls back to the default dark-store point. -/
lemma point_randZero : getRandomPointInCcr randZero =
    (defaultDarkStoreLocationSim.lat, defaultDarkStoreLocationSim.lng) := by
  rw [getRandomPointInCcr, getRandomPointInCcrLoop,
    go_randZero (MAX_ATTEMPTS + 1 - 0) 0 (by omega)]

/-- The attempt counter the loop returns never exceeds the starting counter
plus the remaining fuel. -/
lemma go_samples_le (rand : ℕ → ℚ) : ∀ fuel attempts,
    (getRandomPointInCcrGo rand fuel attempts).2 ≤ attempts + fuel := by
  intro fuel
  induction fuel with
  | zero => intro attempts; rw [getRandomPointInCcrGo]; omega
  | succ k ih =>
    intro attempts
    rw [getRandomPointInCcrGo]
    try dsimp only
    split_ifs
    · omega
    · omega
    · exact le_trans (ih (attempts + 1)) (by omega)

/-- The loop returns either an in-polygon point or the default point. -/
lemma go_result_ok (rand : ℕ → ℚ) : ∀ fuel attempts,
    isPointInPolygon (getRandomPointInCcrGo rand fuel attempts).1 ccrPolygonRing = true ∨
    (getRandomPointInCcrGo rand fuel attempts).1 =
      (defaultDarkStoreLocationSim.lat, defaultDarkStoreLocationSim.lng) := by
  intro fuel
  induction fuel with
  | zero => intro attempts; rw [getRandomPointInCcrGo]; exact Or.inr rfl
  | succ k ih =>
    intro attempts
    rw [getRandomPointInCcrGo]
    try dsimp only
    split_ifs with h1 h2
    · exact Or.inr rfl
    · exact Or.inl h2
    · exact ih (attempts + 1)

/-! ### The zone spawner's per-tick yield -/

/-- A zone spawns exactly one order when its window is active and the single
Bernoulli draw falls below the expected per-step count, and none otherwise —
never more, whatever the expected count. -/
lemma zoneSpawn_length (env : GenEnv) (stores : List LatLngQ) (primary : LatLngQ)
    (t c i : ℕ) (z : DemandZone) :
    (zoneSpawn env stores primary t c i z).1.length =
      if (z.startTime * 60 ≤ t ∧ t ≤ z.endTime * 60) ∧
         env.zoneBernRand i <
           (z.minOrders + env.zoneRateRand i * (z.maxOrders - z.minOrders)) *
             ((MINUTES_PER_SIMULATION_STEP : ℚ) / 60) then 1 else 0 := by
  rw [zoneSpawn]
  by_cases h1 : z.startTime * 60 ≤ t ∧ t ≤ z.endTime * 60
  · rw [if_pos h1]
    try dsimp only
    by_cases h2 : env.zoneBernRand i <
        (z.minOrders + env.zoneRateRand i * (z.maxOrders - z.minOrders)) *
          ((MINUTES_PER_SIMULATION_STEP : ℚ) / 60)
    · rw [if_pos h2, if_pos (And.intro h1 h2)]
      rfl
    · rw [if_neg h2, if_neg (fun hc => h2 hc.2)]
      rfl
  · rw [if_neg h1, if_neg (fun hc => h1 hc.1)]
    rfl

/-- On the concrete heavy zone the expected per-step count is `5/2`: its
floor is `2`, yet the spawner yields a single order. -/
lemma zoneSpawn_heavy_eval :
    (30 + exGenEnv.zoneRateRand 0 * ((30 : ℚ) - 30)) *
        ((MINUTES_PER_SIMULATION_STEP : ℚ) / 60) = 5 / 2 ∧
    (zoneSpawn exGenEnv [exStorePt] exStorePt 0 0 0 exHeavyZone).1.length = 1 := by
  constructor
  · norm_num [exGenEnv, MINUTES_PER_SIMULATION_STEP]
  · rw [zoneSpawn_length]
    rw [if_pos]
    constructor
    · constructor <;> norm_num [exHeavyZone]
    · norm_num [exHeavyZone, exGenEnv, MINUTES_PER_SIMULATION_STEP]

/-! ### The optimization sweep's generated-order fixup -/

/-- The returned `generatedOrders` is always at least one. -/
lemma simplifiedSimulationRun_generated_pos (env : OptEnv) (numAgents : ℕ)
    (coords : LatLngQ) (profs : List CustomDemandProfile) (pid : String)
    (maxSimTime : ℕ) (sla : ℚ) :
    1 ≤ (simplifiedSimulationRun env numAgents coords profs pid maxSimTime sla).generatedOrders := by
  rw [simplifiedSimulationRun]
  try dsimp only
  split_ifs <;> omega

/-- With an empty custom profile nothing is generated: the fixup reports one
generated order, none delivered, and the completion rate is zero. -/
lemma simplifiedSimulationRun_empty_eval :
    (simplifiedSimulationRun exOptEnv 1 defaultDarkStoreLocationSim [exEmptyProfile]
        "empty" 5 30).generatedOrders = 1 ∧
    (simplifiedSimulationRun exOptEnv 1 defaultDarkStoreLocationSim [exEmptyProfile]
        "empty" 5 30).deliveredOrders = 0 ∧
    completionRate 0 1 = 0 := by
  refine ⟨?_, ?_, by norm_num [completionRate]⟩ <;>
    norm_num [simplifiedSimulationRun, exOptEnv, exEmptyProfile, optGenerateOrders,
      optGenStepTimes, optOrdersThisStepRaw, optRound, optDeliveryLoop,
      MINUTES_PER_SIMULATION_STEP, List.range_succ, List.find?, List.enum]

/-! ## The checked claims -/

/-- Claim C1: the spec says the at-store pickup transition resets both the
agent's leg index and its leg progress to 0 so the agent starts the
store-to-customer segment.  The code resets only the leg progress: on the
concrete arrived agent (leg index 6 on a 7-waypoint route) the pickup step
turns the agent `to_customer` and the order `picked_up`, resets the leg
progress, but leaves the leg index at 6 — the final leg of the concatenated
route — so no second segment is ever walked. -/
theorem c1_pickup_leaves_leg_index_unreset :
    (updateOneAgentMovement (fun _ _ => 0) 25 1 10 [exStorePt]
        [exOrderArrived] exAgentArrived).agent.status = AgentStatus.to_customer ∧
    (updateOneAgentMovement (fun _ _ => 0) 25 1 10 [exStorePt]
        [exOrderArrived] exAgentArrived).agent.legProgress = 0 ∧
    (updateOneAgentMovement (fun _ _ => 0) 25 1 10 [exStorePt]
        [exOrderArrived] exAgentArrived).orders =
      [{ exOrderArrived with status := OrderStatus.picked_up }] ∧
    (updateOneAgentMovement (fun _ _ => 0) 25 1 10 [exStorePt]
        [exOrderArrived] exAgentArrived).agent.currentLegIndex = 6 ∧
    exAgentArrived.routePath.length = 7 := by
  refine ⟨?_, ?_, ?_, ?_, ?_⟩ <;>
    repeat
      first
        | rfl
        | (norm_num [updateOneAgentMovement, exAgentArrived, exOrderArrived, exRouteLit,
            exStorePt, HANDLING_TIME_AT_STORE, MINUTES_PER_SIMULATION_STEP,
            updateFirstBy, List.find?])
        | (simp [exAgentArrived, exOrderArrived, exRouteLit, exStorePt])

/-- Claim C2: in every reachable state no order is `delivered` and the
delivered counter is 0; the mechanism is the leg-saturation invariant — an
`at_store` or `to_customer` agent's leg index already points at (or past)
the final leg of its concatenated route, so the movement branch containing
delivery finalization is never entered again. -/
theorem c2_no_order_ever_delivered {params : SimParams}
    {profs : List CustomDemandProfile} {s : SimState}
    (h : Reachable params profs s) :
    (∀ o ∈ s.orders, o.status ≠ OrderStatus.delivered) ∧
    s.totalOrdersDelivered = 0 ∧
    (∀ a ∈ s.agents, agentLegSat a) := by
  obtain ⟨hA, hO, hD⟩ := reachable_inv h
  exact ⟨fun o ho => (hO o ho).1, hD, fun a ha => (hA a ha).2.2⟩

/-- Claim C2, witnessed on the reachable state after the first concrete
tick, which holds a live order and an at-store agent. -/
theorem c2_no_order_ever_delivered_witness :
    Reachable exParams [] exStateLit1 ∧
    ((∀ o ∈ exStateLit1.orders, o.status ≠ OrderStatus.delivered) ∧
     exStateLit1.totalOrdersDelivered = 0 ∧
     (∀ a ∈ exStateLit1.agents, agentLegSat a)) :=
  ⟨exStateLit1_reachable, c2_no_order_ever_delivered exStateLit1_reachable⟩

/-- Claim C3: in every reachable state every agent's fatigue factor lies in
`[1/2, 1]`, and one application of the fatigue model never increases a busy
agent's factor and never decreases an idle agent's factor. -/
theorem c3_fatigue_band_and_monotonicity {params : SimParams}
    {profs : List CustomDemandProfile} {s : SimState}
    (h : Reachable params profs s) :
    (∀ a ∈ s.agents, 1 / 2 ≤ a.fatigueFactor ∧ a.fatigueFactor ≤ 1) ∧
    (∀ a : Agent, a.status ≠ AgentStatus.available →
      (updateOneAgentFatigue a).fatigueFactor ≤ a.fatigueFactor) ∧
    (∀ a : Agent, a.status = AgentStatus.available →
      a.fatigueFactor ≤ (updateOneAgentFatigue a).fatigueFactor) := by
  obtain ⟨hA, _, _⟩ := reachable_inv h
  exact ⟨fun a ha => (hA a ha).1,
    fun a hb => fatigue_busy_nonincreasing hb,
    fun a hi => fatigue_idle_nondecreasing hi⟩

/-- Claim C3, witnessed on the reachable state after the first concrete
tick. -/
theorem c3_fatigue_band_and_monotonicity_witness :
    Reachable exParams [] exStateLit1 ∧
    ((∀ a ∈ exStateLit1.agents, 1 / 2 ≤ a.fatigueFactor ∧ a.fatigueFactor ≤ 1) ∧
     (∀ a : Agent, a.status ≠ AgentStatus.available →
       (updateOneAgentFatigue a).fatigueFactor ≤ a.fatigueFactor) ∧
     (∀ a : Agent, a.status = AgentStatus.available →
       a.fatigueFactor ≤ (updateOneAgentFatigue a).fatigueFactor)) :=
  ⟨exStateLit1_reachable, c3_fatigue_band_and_monotonicity exStateLit1_reachable⟩

/-- Claim C4, counterexample: the best-agent scan is not an argmin over all
still-available agents.  Both agents are available; the fatigued agent
standing on the store has ETA 5 while the distant fresh agent has ETA 305;
yet the scan skips the fatigued agent — its effective speed `1/5 · 1/2 · 1`
fails the `> 0.1 km/h` eligibility check the spec does not mention — and
returns the distant agent. -/
theorem c4_slow_agent_skipped :
    exSlowAgent.status = AgentStatus.available ∧
    exFastAgent.status = AgentStatus.available ∧
    agentEta distEx (1/5) 1 ⟨0, 0⟩ exOrderAtStore exSlowAgent <
      agentEta distEx (1/5) 1 ⟨0, 0⟩ exOrderAtStore exFastAgent ∧
    selectBestAgent distEx (1/5) 1 [exSlowAgent, exFastAgent]
      [exSlowAgent, exFastAgent] ⟨0, 0⟩ exOrderAtStore = some exFastAgent := by
  refine ⟨rfl, rfl, ?_, ?_⟩ <;>
    repeat
      first
        | rfl
        | (norm_num [selectBestAgent, agentEta, distEx, exSlowAgent, exFastAgent,
            exAgentLit0, exOrderAtStore, List.find?])
        | (simp [exSlowAgent, exFastAgent, exAgentLit0, exOrderAtStore, distEx])

/-- Claim C4, amended: the serving store is the first store attaining the
minimum distance to the order, and the assigned agent is the first-minimum
of the ETA over the agents passing the assigner's eligibility checks —
still `available` in the evolving agent array and effective speed strictly
above 0.1 km/h; when no agent passes, the scan returns none and the order
stays pending. -/
theorem c4_argmin_over_eligible_agents (distK : LatLngQ → LatLngQ → ℚ)
    (speed traffic : ℚ) (modAgents avail : List Agent) (stores : List LatLngQ)
    (storeCoords : LatLngQ) (order : Order) (hne : stores ≠ []) :
    (selectClosestStore distK stores order ∈ stores ∧
     ∀ ds ∈ stores,
       distK (selectClosestStore distK stores order) ⟨order.lat, order.lng⟩ ≤
         distK ds ⟨order.lat, order.lng⟩) ∧
    (selectBestAgent distK speed traffic modAgents avail storeCoords order = none ↔
      avail.filter (agentEligibleB modAgents speed traffic) = []) ∧
    (∀ b, selectBestAgent distK speed traffic modAgents avail storeCoords order =
        some b →
      ∃ pre post,
        avail.filter (agentEligibleB modAgents speed traffic) = pre ++ b :: post ∧
        (∀ x ∈ pre, agentEta distK speed traffic storeCoords order b <
          agentEta distK speed traffic storeCoords order x) ∧
        (∀ x ∈ post, agentEta distK speed traffic storeCoords order b ≤
          agentEta distK speed traffic storeCoords order x)) := by
  obtain ⟨h1, h2⟩ := selectBestAgent_spec distK speed traffic modAgents avail
    storeCoords order
  exact ⟨selectClosestStore_spec distK stores order hne, h1, h2⟩

/-- Claim C4, amended form witnessed at a concrete instantiation. -/
theorem c4_argmin_over_eligible_agents_witness :
    (([exStorePt] : List LatLngQ) ≠ []) ∧
    ((selectClosestStore distEx [exStorePt] exOrderAtStore ∈ [exStorePt] ∧
      ∀ ds ∈ [exStorePt],
        distEx (selectClosestStore distEx [exStorePt] exOrderAtStore)
            ⟨exOrderAtStore.lat, exOrderAtStore.lng⟩ ≤
          distEx ds ⟨exOrderAtStore.lat, exOrderAtStore.lng⟩) ∧
     (selectBestAgent distEx 1 1 [] [] exStorePt exOrderAtStore = none ↔
       ([] : List Agent).filter (agentEligibleB [] 1 1) = []) ∧
     (∀ b, selectBestAgent distEx 1 1 [] [] exStorePt exOrderAtStore = some b →
       ∃ pre post,
         ([] : List Agent).filter (agentEligibleB [] 1 1) = pre ++ b :: post ∧
         (∀ x ∈ pre, agentEta distEx 1 1 exStorePt exOrderAtStore b <
           agentEta distEx 1 1 exStorePt exOrderAtStore x) ∧
         (∀ x ∈ post, agentEta distEx 1 1 exStorePt exOrderAtStore b ≤
           agentEta distEx 1 1 exStorePt exOrderAtStore x))) :=
  ⟨by simp,
   c4_argmin_over_eligible_agents distEx 1 1 [] [] [exStorePt] exStorePt
     exOrderAtStore (by simp)⟩

/-- Claim C5, counterexample: on a zone demanding a constant 30 orders/hour
the expected per-step count is `5/2`, whose floor is 2 and ceiling 3, yet
the generator spawns exactly one order for the zone in the tick: the full
simulation's generator performs a single Bernoulli draw per zone per tick
and never spawns more than one order per zone. -/
theorem c5_heavy_zone_single_spawn :
    (30 + exGenEnv.zoneRateRand 0 * ((30 : ℚ) - 30)) *
        ((MINUTES_PER_SIMULATION_STEP : ℚ) / 60) = 5 / 2 ∧
    ⌊(5 / 2 : ℚ)⌋ = 2 ∧ ⌈(5 / 2 : ℚ)⌉ = 3 ∧
    (zoneSpawn exGenEnv [exStorePt] exStorePt 0 0 0 exHeavyZone).1.length = 1 := by
  obtain ⟨h1, h2⟩ := zoneSpawn_heavy_eval
  refine ⟨h1, ?_, ?_, h2⟩
  · norm_num [Int.floor_eq_iff]
  · norm_num [Int.ceil_eq_iff]

/-- Claim C5, amended: in the full simulation each zone whose window
contains the current time spawns exactly one order when the zone's single
Bernoulli draw falls below the expected per-step count
`rate_drawn_uniformly(min,max) · step/60`, and zero otherwise — never more
than one, whatever the expected count. -/
theorem c5_zone_spawns_at_most_one (env : GenEnv) (stores : List LatLngQ)
    (primary : LatLngQ) (t c i : ℕ) (z : DemandZone) :
    (zoneSpawn env stores primary t c i z).1.length =
      if (z.startTime * 60 ≤ t ∧ t ≤ z.endTime * 60) ∧
         env.zoneBernRand i <
           (z.minOrders + env.zoneRateRand i * (z.maxOrders - z.minOrders)) *
             ((MINUTES_PER_SIMULATION_STEP : ℚ) / 60) then 1 else 0 :=
  zoneSpawn_length env stores primary t c i z

/-- Claim C6: in every reachable state the three agent conditions are
pairwise equivalent, and the linkage is preserved by the movement engine,
the fatigue model, and the assigner. -/
theorem c6_status_order_route_equivalence {params : SimParams}
    {profs : List CustomDemandProfile} {s : SimState}
    (h : Reachable params profs s) :
    (∀ a ∈ s.agents,
      (a.status = AgentStatus.available ↔ a.currentOrder = none) ∧
      (a.status = AgentStatus.available ↔ a.routePath = []) ∧
      (a.currentOrder = none ↔ a.routePath = [])) ∧
    (∀ (distM : LatLngQ → LatLngQ → ℚ) (speed traffic : ℚ) (t : ℕ)
        (stores : List LatLngQ) (agents : List Agent) (orders : List Order),
      (∀ a ∈ agents, agentLink a) →
      ∀ a ∈ (updateAgentsMovementAndStatusLogic distM speed traffic t stores
          agents orders).updatedAgents, agentLink a) ∧
    (∀ agents : List Agent, (∀ a ∈ agents, agentLink a) →
      ∀ a ∈ updateAgentFatigueLogic agents, agentLink a) ∧
    (∀ (distK : LatLngQ → LatLngQ → ℚ) (speed traffic : ℚ)
        (stores : List LatLngQ) (t : ℕ) (agents : List Agent) (orders : List Order),
      (∀ a ∈ agents, agentInv a) → (∀ o ∈ orders, orderInv t o) →
      ∀ a ∈ (assignOrdersToAgentsLogic distK speed traffic stores agents orders).1,
        agentLink a) := by
  obtain ⟨hA, _, _⟩ := reachable_inv h
  refine ⟨?_, ?_, ?_, ?_⟩
  · intro a ha
    obtain ⟨h1, h2⟩ := (hA a ha).2.1
    exact ⟨h1, h2, Iff.trans h1.symm h2⟩
  · intro distM speed traffic t stores agents orders hl
    exact updateAgentsMovementAndStatusLogic_link distM speed traffic t stores
      agents orders hl
  · intro agents hl
    exact updateAgentFatigueLogic_link hl
  · intro distK speed traffic stores t agents orders h1 h2 a ha
    exact ((assignOrdersToAgentsLogic_inv distK speed traffic stores t agents
      orders h1 h2).1 a ha).2.1

/-- Claim C6, witnessed on the reachable state after the first concrete
tick. -/
theorem c6_status_order_route_equivalence_witness :
    Reachable exParams [] exStateLit1 ∧
    ((∀ a ∈ exStateLit1.agents,
      (a.status = AgentStatus.available ↔ a.currentOrder = none) ∧
      (a.status = AgentStatus.available ↔ a.routePath = []) ∧
      (a.currentOrder = none ↔ a.routePath = [])) ∧
    (∀ (distM : LatLngQ → LatLngQ → ℚ) (speed traffic : ℚ) (t : ℕ)
        (stores : List LatLngQ) (agents : List Agent) (orders : List Order),
      (∀ a ∈ agents, agentLink a) →
      ∀ a ∈ (updateAgentsMovementAndStatusLogic distM speed traffic t stores
          agents orders).updatedAgents, agentLink a) ∧
    (∀ agents : List Agent, (∀ a ∈ agents, agentLink a) →
      ∀ a ∈ updateAgentFatigueLogic agents, agentLink a) ∧
    (∀ (distK : LatLngQ → LatLngQ → ℚ) (speed traffic : ℚ)
        (stores : List LatLngQ) (t : ℕ) (agents : List Agent) (orders : List Order),
      (∀ a ∈ agents, agentInv a) → (∀ o ∈ orders, orderInv t o) →
      ∀ a ∈ (assignOrdersToAgentsLogic distK speed traffic stores agents orders).1,
        agentLink a)) :=
  ⟨exStateLit1_reachable, c6_status_order_route_equivalence exStateLit1_reachable⟩

/-- Claim C7, counterexample: the state after the first concrete tick is
reachable and holds an `at_store` agent whose route waypoint list is still
the full 7-waypoint concatenated route — non-empty — contradicting the
claimed "route non-empty iff status ∈ \x7bto_store, to_customer\x7d". -/
theorem c7_at_store_agent_keeps_route :
    Reachable exParams [] exStateLit1 ∧
    exAgentArrived ∈ exStateLit1.agents ∧
    exAgentArrived.status = AgentStatus.at_store ∧
    exAgentArrived.routePath ≠ [] :=
  ⟨exStateLit1_reachable, by simp [exStateLit1], rfl,
   by simp [exAgentArrived, exRouteLit]⟩

/-- Claim C7, amended: in every reachable state an agent holds an order iff
it is not `available`, and its route waypoint list is non-empty iff it is
not `available` — the route is kept through the `at_store` phase, not
cleared on store arrival. -/
theorem c7_linkage_amended {params : SimParams}
    {profs : List CustomDemandProfile} {s : SimState}
    (h : Reachable params profs s) :
    ∀ a ∈ s.agents,
      (a.currentOrder ≠ none ↔ a.status ≠ AgentStatus.available) ∧
      (a.routePath ≠ [] ↔ a.status ≠ AgentStatus.available) := by
  obtain ⟨hA, _, _⟩ := reachable_inv h
  intro a ha
  obtain ⟨h1, h2⟩ := (hA a ha).2.1
  exact ⟨not_congr h1.symm, not_congr h2.symm⟩

/-- Claim C7, amended form witnessed on the reachable state after the first
concrete tick, whose agent is `at_store` with its route installed. -/
theorem c7_linkage_amended_witness :
    Reachable exParams [] exStateLit1 ∧
    (∀ a ∈ exStateLit1.agents,
      (a.currentOrder ≠ none ↔ a.status ≠ AgentStatus.available) ∧
      (a.routePath ≠ [] ↔ a.status ≠ AgentStatus.available)) :=
  ⟨exStateLit1_reachable, c7_linkage_amended exStateLit1_reachable⟩

/-- Claim C8: in every reachable state the populated timestamps of every
order are ordered — placement below store arrival, store arrival below
customer arrival — and every delivered order's delivery time is exactly the
customer arrival minus the placement time (the last two facts vacuously,
since no reachable order has a customer arrival or `delivered` status). -/
theorem c8_timestamp_ordering {params : SimParams}
    {profs : List CustomDemandProfile} {s : SimState}
    (h : Reachable params profs s) :
    ∀ o ∈ s.orders,
      (∀ ts, o.storeArrivalTime = some ts → o.timePlaced ≤ ts) ∧
      (∀ ts tc, o.storeArrivalTime = some ts → o.customerArrivalTime = some tc →
        ts ≤ tc) ∧
      (o.status = OrderStatus.delivered → ∀ tc, o.customerArrivalTime = some tc →
        o.deliveryTime = some ((tc : ℤ) - (o.timePlaced : ℤ))) := by
  obtain ⟨_, hO, _⟩ := reachable_inv h
  intro o ho
  obtain ⟨hne, hplaced, hstore, hcust, hdel⟩ := hO o ho
  refine ⟨fun ts hts => (hstore ts hts).1, ?_, ?_⟩
  · intro ts tc h1 h2
    rw [hcust] at h2
    exact Option.noConfusion h2
  · intro hd
    exact absurd hd hne

/-- Claim C8, witnessed on the reachable state after the first concrete
tick, whose order has its store arrival stamped at `t = 5`. -/
theorem c8_timestamp_ordering_witness :
    Reachable exParams [] exStateLit1 ∧
    (∀ o ∈ exStateLit1.orders,
      (∀ ts, o.storeArrivalTime = some ts → o.timePlaced ≤ ts) ∧
      (∀ ts tc, o.storeArrivalTime = some ts → o.customerArrivalTime = some tc →
        ts ≤ tc) ∧
      (o.status = OrderStatus.delivered → ∀ tc, o.customerArrivalTime = some tc →
        o.deliveryTime = some ((tc : ℤ) - (o.timePlaced : ℤ)))) :=
  ⟨exStateLit1_reachable, c8_timestamp_ordering exStateLit1_reachable⟩

/-- Claim C9, counterexample: the cap is checked after the increment, so the
rejection sampler can draw 201 bounding-box samples, one more than the
claimed bound of `MAX_ATTEMPTS = 200`: under the all-zeroes stream every
draw is the rejected south-west corner and the sampler exhausts all 201
attempts before falling back to the default dark-store point. -/
theorem c9_sampler_draws_201 :
    getRandomPointInCcrSamples randZero = 201 ∧
    MAX_ATTEMPTS = 200 ∧
    getRandomPointInCcr randZero =
      (defaultDarkStoreLocationSim.lat, defaultDarkStoreLocationSim.lng) :=
  ⟨samples_randZero, rfl, point_randZero⟩

/-- Claim C9, amended: for every random stream the sampler terminates after
at most `MAX_ATTEMPTS + 1 = 201` bounding-box samples and returns either a
point passing the ray-casting test or the fixed default dark-store point;
exhaustion is absorbed by the fallback, never surfaced to the caller. -/
theorem c9_bounded_sampling (rand : ℕ → ℚ) :
    getRandomPointInCcrSamples rand ≤ MAX_ATTEMPTS + 1 ∧
    (isPointInPolygon (getRandomPointInCcr rand) ccrPolygonRing = true ∨
     getRandomPointInCcr rand =
       (defaultDarkStoreLocationSim.lat, defaultDarkStoreLocationSim.lng)) := by
  constructor
  · rw [getRandomPointInCcrSamples, getRandomPointInCcrLoop]
    exact le_trans (go_samples_le rand (MAX_ATTEMPTS + 1 - 0) 0) (by omega)
  · rw [getRandomPointInCcr, getRandomPointInCcrLoop]
    exact go_result_ok rand (MAX_ATTEMPTS + 1 - 0) 0

/-- Claim C10: the optimization sweep's stats always report at least one
generated order — the zero case is forced to one so the downstream
completion-rate division is safe — and a zero-demand run is indeed reported
as one generated order, none delivered, completion rate zero. -/
theorem c10_generated_orders_positive :
    (∀ (env : OptEnv) (numAgents : ℕ) (coords : LatLngQ)
        (profs : List CustomDemandProfile) (pid : String) (maxSimTime : ℕ) (sla : ℚ),
      1 ≤ (simplifiedSimulationRun env numAgents coords profs pid
            maxSimTime sla).generatedOrders) ∧
    (simplifiedSimulationRun exOptEnv 1 defaultDarkStoreLocationSim [exEmptyProfile]
        "empty" 5 30).generatedOrders = 1 ∧
    (simplifiedSimulationRun exOptEnv 1 defaultDarkStoreLocationSim [exEmptyProfile]
        "empty" 5 30).deliveredOrders = 0 ∧
    completionRate 0 1 = 0 := by
  obtain ⟨h1, h2, h3⟩ := simplifiedSimulationRun_empty_eval
  exact ⟨fun env n c p pid T sla =>
    simplifiedSimulationRun_generated_pos env n c p pid T sla, h1, h2, h3⟩

end QCSim



